import Mathlib

/-!
# Laser harp beam manager (LaserBeamManager.cpp / LaserBeamManager.h)

A shallow embedding of the beam scanning and event detection class.

Conventions of the embedding:

* the object is a record of its member variables, every member function is a
  function from record to record (plus its return value);
* C arrays are total maps from the index (`Nat → α`); the guards the source
  places on indices are kept, the arrays themselves have 16 (beams),
  32 (events) and 16 x 100 (calibration samples) cells in the source; an
  access outside these bounds, undefined in the source, reads or writes a
  cell of its own here and touches no other member variable;
* `uint8_t`, `uint16_t` and `uint32_t` values are natural numbers, reduced
  modulo the width where the source arithmetic can wrap; `int` values are
  integers (signed overflow is undefined in the source and not modelled);
* `float` values are rationals; where the source converts the result to an
  integer (`CalculateVelocity`, `CalculateThresholds`) every `float`
  operation is rounded to single precision (`f32`: binary32, round to
  nearest, ties to even); the scaling of the converter value and the low-pass
  filter are exact arithmetic; infinities and not-a-number are not modelled;
* the clock `daisy::System::GetNow()` and the converter
  `hardware_->adc.GetFloat(0)` are inputs of the call that reads them;
* the configuration behind the pointer `config_` is held by value: nobody
  changes it between two calls; the pointer `hardware_` is never null.

The definitions come first, in the order of the source; the proofs follow.
-/

namespace LaserHarp

/-! ## Constants (LaserBeamManager.cpp lines 5-13, LaserBeamManager.h line 94) -/

/-- Low-pass filter coefficient `FILTER_ALPHA = 0.3f`. -/
def FILTER_ALPHA : ℚ := 3 / 10

/-- Debounce time in milliseconds. -/
def DEBOUNCE_TIME_MS : Nat := 5

/-- Sensor update interval, the initial value of `updateInterval_`. -/
def SENSOR_UPDATE_INTERVAL_US : Nat := 200

/-- Default threshold of every beam. -/
def DEFAULT_THRESHOLD : Nat := 700

/-- Steps of the stepper per revolution. -/
def STEPS_PER_REVOLUTION : Int := 200

/-- Beam count used when no configuration is attached. -/
def DEFAULT_BEAMS : Nat := 6

/-- Step pulse width (only passed to the delay routine). -/
def PULSE_WIDTH_US : Nat := 50

/-- Minimal time between two steps. -/
def STEP_DELAY_US : Nat := 100

/-- Time a beam is checked for, in milliseconds. -/
def BEAM_CHECK_TIME_MS : Nat := 3

/-- Capacity of the event ring buffer. -/
def EVENT_QUEUE_SIZE : Nat := 32

/-- Number of values of a `uint32_t`. -/
def U32 : Nat := 4294967296

/-- Difference `a - b` of two `uint32_t` values, wrapping around. -/
def sub32 (a b : Nat) : Nat := (a % U32 + U32 - b % U32) % U32

/-- Conversion of a float to `uint16_t`: the fraction is discarded. -/
def truncU16 (x : ℚ) : Nat := Int.toNat ⌊x⌋ % 65536

/-- Conversion of a float to `uint8_t`: the fraction is discarded. -/
def truncU8 (x : ℚ) : Nat := Int.toNat ⌊x⌋ % 256

/-! ## Single precision (the type `float` of the source) -/

/-- Rounding to the nearest integer, a tie going to the even neighbour. -/
def roundHalfEven (y : ℚ) : Int :=
  if 2 * Int.fract y < 1 then ⌊y⌋
  else if 1 < 2 * Int.fract y then ⌊y⌋ + 1
  else if ⌊y⌋ % 2 = 0 then ⌊y⌋ else ⌊y⌋ + 1

/-- Number of binary digits of `n` (0 for 0); `fuel` bounds the recursion and
`n` itself is enough. -/
def bitLength : Nat → Nat → Nat
  | 0, _ => 0
  | fuel + 1, n => if n = 0 then 0 else bitLength fuel (n / 2) + 1

/-- Integer part of the logarithm of `|x|` to base 2, for `x` other than 0:
the difference of the bit lengths of numerator and denominator, or one less. -/
def log2Floor (x : ℚ) : Int :=
  let e : Int := (bitLength x.num.natAbs x.num.natAbs : Int) - (bitLength x.den x.den : Int)
  if (2 : ℚ) ^ e ≤ |x| then e else e - 1

/-- Binary exponent of the `float` nearest to `x`: the integer part of the
logarithm of `|x|` to base 2, and -126 in the subnormal range. -/
def f32Exponent (x : ℚ) : Int := max (log2Floor x) (-126)

/-- Spacing of the `float` values around `x`: 24 significant bits. -/
def f32Ulp (x : ℚ) : ℚ := (2 : ℚ) ^ (f32Exponent x - 23)

/-- The `float` that holds the result `x` of one arithmetic operation: `x`
rounded to the nearest binary32 value, ties to even (IEEE 754, the default
rounding mode).  Overflow to infinity is not modelled: the values rounded in
this file stay far below 2^128. -/
def f32 (x : ℚ) : ℚ := (roundHalfEven (x / f32Ulp x) : ℚ) * f32Ulp x

/-! ## Data model (LaserBeamManager.h) -/

/-- Event types for beam interruptions. -/
inductive BeamEventType where
  | BEAM_BROKEN
  | BEAM_RESTORED
  | BEAM_CALIBRATION
  deriving DecidableEq, Repr

/-- Structure for beam events. -/
structure BeamEvent where
  type : BeamEventType
  beamIndex : Nat
  velocity : Nat
  timestamp : Nat
  analogValue : ℚ
  deriving DecidableEq

/-- Servo control states. -/
inductive ServoState where
  | SERVO_IDLE
  | SERVO_SCANNING
  | SERVO_CALIBRATING
  | SERVO_ERROR
  deriving DecidableEq, Repr

/-- Modelled from the spec: the configuration record that LaserBeamManager.cpp
reads.  `numBeams` is the `uint8_t` member of ConfigManager.h; the member
`sensorThresholds` read by `LoadConfigurationParameters` is declared in none
of the sources and stands for the per-beam threshold overrides that the beam
manager consumes from the configuration store. -/
structure LaserHarpConfig where
  numBeams : Nat
  sensorThresholds : Nat → Nat

/-- Member variables of `LaserBeamManager`. -/
structure LaserBeamManager where
  config_ : Option LaserHarpConfig
  currentServoPosition_ : ℚ
  targetServoPosition_ : ℚ
  lastServoUpdate_ : Nat
  servoState_ : ServoState
  servoDirection_ : ℚ
  sensorValues_ : Nat → ℚ
  filteredValues_ : Nat → ℚ
  beamStates_ : Nat → Bool
  previousStates_ : Nat → Bool
  lastStateChange_ : Nat → Nat
  thresholds_ : Nat → Nat
  eventQueue_ : Nat → BeamEvent
  eventQueueHead_ : Nat
  eventQueueTail_ : Nat
  eventQueueCount_ : Nat
  isCalibrating_ : Bool
  calibrationBeam_ : Nat
  calibrationValues_ : Nat → Nat → ℚ
  calibrationSampleCount_ : Nat
  lastUpdateTime_ : Nat
  updateInterval_ : Nat
  stepPin_ : Bool
  dirPin_ : Bool
  laserPin_ : Bool
  currentStepPosition_ : Int
  targetStepPosition_ : Int
  lastStepTime_ : Nat
  scanDirection_ : Int
  currentBeamIndex_ : Nat
  stepsPerBeam_ : Int
  atBeamPosition_ : Bool
  beamCheckStartTime_ : Nat
  laserState_ : Bool

/-- Inputs read by one call of `Update`: the clock as read by `Update`,
`UpdateServo`, `ProcessBeamStates` and `QueueEvent`, and the converter value
read by `ReadSensors`. -/
structure TickInput where
  now : Nat
  nowServo : Nat
  nowProcess : Nat
  nowEvent : Nat
  adc : ℚ

/-! ## Member functions (LaserBeamManager.cpp) -/

/-- Constructor (lines 16-48).  The event buffer and the calibration buffer
are not written by the constructor; their initial contents are `q0`, `c0`. -/
def LaserBeamManager.ctor (q0 : Nat → BeamEvent) (c0 : Nat → Nat → ℚ) :
    LaserBeamManager where
  config_ := none
  currentServoPosition_ := 0
  targetServoPosition_ := 0
  lastServoUpdate_ := 0
  servoState_ := ServoState.SERVO_IDLE
  servoDirection_ := 1
  sensorValues_ := fun _ => 0
  filteredValues_ := fun _ => 1000
  beamStates_ := fun _ => true
  previousStates_ := fun _ => true
  lastStateChange_ := fun _ => 0
  thresholds_ := fun _ => DEFAULT_THRESHOLD
  eventQueue_ := q0
  eventQueueHead_ := 0
  eventQueueTail_ := 0
  eventQueueCount_ := 0
  isCalibrating_ := false
  calibrationBeam_ := 0
  calibrationValues_ := c0
  calibrationSampleCount_ := 0
  lastUpdateTime_ := 0
  updateInterval_ := SENSOR_UPDATE_INTERVAL_US
  stepPin_ := false
  dirPin_ := false
  laserPin_ := false
  currentStepPosition_ := 0
  targetStepPosition_ := 0
  lastStepTime_ := 0
  scanDirection_ := 1
  currentBeamIndex_ := 0
  stepsPerBeam_ := STEPS_PER_REVOLUTION / (DEFAULT_BEAMS : Int)
  atBeamPosition_ := false
  beamCheckStartTime_ := 0
  laserState_ := false

/-- `HasEvents` (lines 103-105). -/
def HasEvents (s : LaserBeamManager) : Bool :=
  decide (s.eventQueueCount_ > 0)

/-- `GetNextEvent` (lines 107-117): the return value, the caller's event
object after the call, and the object after the call. -/
def GetNextEvent (s : LaserBeamManager) (event : BeamEvent) :
    Bool × BeamEvent × LaserBeamManager :=
  if s.eventQueueCount_ = 0 then
    (false, event, s)
  else
    (true, s.eventQueue_ s.eventQueueHead_,
      { s with
        eventQueueHead_ := (s.eventQueueHead_ + 1) % EVENT_QUEUE_SIZE
        eventQueueCount_ := s.eventQueueCount_ - 1 })

/-- `ClearEvents` (lines 119-123). -/
def ClearEvents (s : LaserBeamManager) : LaserBeamManager :=
  { s with eventQueueHead_ := 0, eventQueueTail_ := 0, eventQueueCount_ := 0 }

/-- `IsEventQueueFull` (lines 504-506). -/
def IsEventQueueFull (s : LaserBeamManager) : Bool :=
  decide (s.eventQueueCount_ ≥ EVENT_QUEUE_SIZE)

/-- `QueueEvent` with four arguments (lines 479-496); `now` is the clock value
read for the time stamp. -/
def QueueEvent (s : LaserBeamManager) (type : BeamEventType) (beam velocity : Nat)
    (analogValue : ℚ) (now : Nat) : LaserBeamManager :=
  if IsEventQueueFull s then
    s
  else
    let event : BeamEvent :=
      { type := type, beamIndex := beam, velocity := velocity,
        timestamp := now % U32, analogValue := analogValue }
    { s with
      eventQueue_ := Function.update s.eventQueue_ s.eventQueueTail_ event
      eventQueueTail_ := (s.eventQueueTail_ + 1) % EVENT_QUEUE_SIZE
      eventQueueCount_ := s.eventQueueCount_ + 1 }

/-- `QueueEvent` with three arguments (lines 521-523). -/
def QueueEvent3 (s : LaserBeamManager) (type : BeamEventType) (beam velocity : Nat)
    (now : Nat) : LaserBeamManager :=
  QueueEvent s type beam velocity 0 now

/-- `StartCalibration` (lines 126-129). -/
def StartCalibration (s : LaserBeamManager) : LaserBeamManager :=
  { s with isCalibrating_ := true }

/-- `EndCalibration` (lines 131-134). -/
def EndCalibration (s : LaserBeamManager) : LaserBeamManager :=
  { s with isCalibrating_ := false }

/-- `IsCalibrating` (lines 136-138). -/
def IsCalibrating (s : LaserBeamManager) : Bool :=
  s.isCalibrating_

/-- `CalibrateCurrentBeam` (lines 140-142), an empty body. -/
def CalibrateCurrentBeam (s : LaserBeamManager) : LaserBeamManager :=
  s

/-- `StartScanning` (lines 145-158); `clk i` is the clock value read in the
`i`-th round of the loop. -/
def StartScanning (s : LaserBeamManager) (clk : Nat → Nat) : LaserBeamManager :=
  { s with
    servoState_ := ServoState.SERVO_SCANNING
    scanDirection_ := 1
    currentBeamIndex_ := 0
    currentStepPosition_ := 0
    targetStepPosition_ := 0
    atBeamPosition_ := false
    beamStates_ := fun i => if i < 16 then true else s.beamStates_ i
    lastStateChange_ := fun i => if i < 16 then clk i % U32 else s.lastStateChange_ i }

/-- `SetLaserState` (lines 269-272). -/
def SetLaserState (s : LaserBeamManager) (on_ : Bool) : LaserBeamManager :=
  { s with laserPin_ := on_, laserState_ := on_ }

/-- `StopScanning` (lines 160-164). -/
def StopScanning (s : LaserBeamManager) : LaserBeamManager :=
  let s1 := { s with servoState_ := ServoState.SERVO_IDLE }
  let s2 := SetLaserState s1 false
  { s2 with atBeamPosition_ := false }

/-- `SetServoPosition` (lines 166-168). -/
def SetServoPosition (s : LaserBeamManager) (angle : ℚ) : LaserBeamManager :=
  { s with targetServoPosition_ := angle }

/-- `GetServoPosition` (lines 170-172). -/
def GetServoPosition (s : LaserBeamManager) : ℚ :=
  s.currentServoPosition_

/-- `GetServoState` (lines 174-176). -/
def GetServoState (s : LaserBeamManager) : ServoState :=
  s.servoState_

/-- `GetSensorValue` (lines 179-184). -/
def GetSensorValue (s : LaserBeamManager) (sensorIndex : Nat) : ℚ :=
  if sensorIndex < 16 then s.sensorValues_ sensorIndex else 0

/-- `IsBeamBroken` (lines 186-191). -/
def IsBeamBroken (s : LaserBeamManager) (beamIndex : Nat) : Bool :=
  if beamIndex < 16 then !s.beamStates_ beamIndex else false

/-- `SetSensorThreshold` (lines 193-197). -/
def SetSensorThreshold (s : LaserBeamManager) (sensorIndex threshold : Nat) :
    LaserBeamManager :=
  if sensorIndex < 16 then
    { s with thresholds_ := Function.update s.thresholds_ sensorIndex threshold }
  else s

/-- `GetLastUpdateTime` (lines 200-202). -/
def GetLastUpdateTime (s : LaserBeamManager) : Nat :=
  s.lastUpdateTime_

/-- `GetActiveBeamCount` (lines 204-206). -/
def GetActiveBeamCount (s : LaserBeamManager) : Nat :=
  match s.config_ with
  | some cfg => cfg.numBeams
  | none => DEFAULT_BEAMS

/-- `SelfTest` (lines 208-211). -/
def SelfTest (_s : LaserBeamManager) : Bool :=
  true

/-- `InitializeServo` (lines 216-237): both pins are written low and the
position tracking is reset. -/
def InitializeServo (s : LaserBeamManager) : LaserBeamManager :=
  { s with
    stepPin_ := false
    dirPin_ := false
    currentStepPosition_ := 0
    targetStepPosition_ := 0
    lastStepTime_ := 0 }

/-- `InitializeLaser` (lines 240-250). -/
def InitializeLaser (s : LaserBeamManager) : LaserBeamManager :=
  { s with laserPin_ := false, laserState_ := false }

/-- `InitializeADC` (lines 253-261) only touches the converter. -/
def InitializeADC (s : LaserBeamManager) : LaserBeamManager :=
  s

/-- `InitializeGPIO` (lines 263-266). -/
def InitializeGPIO (s : LaserBeamManager) : LaserBeamManager :=
  InitializeLaser s

/-- `MakeStep` (lines 337-348): direction pin, a pulse on the step pin, and
the position moves by `scanDirection_`. -/
def MakeStep (s : LaserBeamManager) : LaserBeamManager :=
  { s with
    dirPin_ := decide (s.scanDirection_ > 0)
    stepPin_ := false
    currentStepPosition_ := s.currentStepPosition_ + s.scanDirection_ }

/-- `CalculateNextBeamPosition` (lines 351-376).  The comparisons are made on
`int`; the assignment of `beamsPerDirection - 1` converts to `uint8_t`. -/
def CalculateNextBeamPosition (s : LaserBeamManager) : LaserBeamManager :=
  let beamsPerDirection : Int :=
    match s.config_ with
    | some cfg => (cfg.numBeams : Int)
    | none => (DEFAULT_BEAMS : Int)
  let s1 : LaserBeamManager :=
    if s.scanDirection_ > 0 then
      if (s.currentBeamIndex_ : Int) ≥ beamsPerDirection - 1 then
        { s with
          scanDirection_ := -1
          currentBeamIndex_ := Int.toNat ((beamsPerDirection - 1) % 256) }
      else
        { s with currentBeamIndex_ := s.currentBeamIndex_ + 1 }
    else
      if (s.currentBeamIndex_ : Int) ≤ 0 then
        { s with scanDirection_ := 1, currentBeamIndex_ := 0 }
      else
        { s with currentBeamIndex_ := s.currentBeamIndex_ - 1 }
  { s1 with targetStepPosition_ := (s1.currentBeamIndex_ : Int) * s1.stepsPerBeam_ }

/-- `HasReachedTargetPosition` (lines 379-381). -/
def HasReachedTargetPosition (s : LaserBeamManager) : Bool :=
  decide (|s.currentStepPosition_ - s.targetStepPosition_| ≤ 1)

/-- `GetCurrentBeamIndex` (lines 384-386). -/
def GetCurrentBeamIndex (s : LaserBeamManager) : Nat :=
  s.currentBeamIndex_

/-- `UpdateScanningMotion` (lines 305-334). -/
def UpdateScanningMotion (s : LaserBeamManager) (currentTime : Nat) : LaserBeamManager :=
  if sub32 currentTime s.lastStepTime_ ≥ STEP_DELAY_US then
    let s1 := MakeStep s
    let s2 := { s1 with lastStepTime_ := currentTime }
    let s3 :=
      if HasReachedTargetPosition s2 then
        let a := SetLaserState s2 true
        let b := { a with atBeamPosition_ := true, beamCheckStartTime_ := currentTime }
        CalculateNextBeamPosition b
      else s2
    if s3.atBeamPosition_ ∧
        sub32 currentTime s3.beamCheckStartTime_ ≥ BEAM_CHECK_TIME_MS * 1000 then
      let c := SetLaserState s3 false
      let d := { c with atBeamPosition_ := false }
      { d with currentBeamIndex_ := GetCurrentBeamIndex d }
    else s3
  else s

/-- `UpdateCalibrationMotion` (lines 298-302). -/
def UpdateCalibrationMotion (s : LaserBeamManager) (currentTime : Nat) : LaserBeamManager :=
  UpdateScanningMotion s currentTime

/-- `UpdateServo` (lines 275-295); `now` is the clock value it reads. -/
def UpdateServo (s : LaserBeamManager) (now : Nat) : LaserBeamManager :=
  let currentTime := now % U32
  match s.servoState_ with
  | ServoState.SERVO_SCANNING => UpdateScanningMotion s currentTime
  | ServoState.SERVO_CALIBRATING => UpdateCalibrationMotion s currentTime
  | ServoState.SERVO_IDLE => s
  | ServoState.SERVO_ERROR => s

/-- `ReadSensors` (lines 389-395); `rawValue` is the converter value. -/
def ReadSensors (s : LaserBeamManager) (rawValue : ℚ) : LaserBeamManager :=
  { s with
    sensorValues_ := Function.update s.sensorValues_ s.currentBeamIndex_ (rawValue * 1023) }

/-- `ApplyLowPassFilter` (lines 499-501): the new content of `*value`. -/
def ApplyLowPassFilter (value newValue alpha : ℚ) : ℚ :=
  alpha * newValue + (1 - alpha) * value

/-- `FilterSensorValues` (lines 398-405). -/
def FilterSensorValues (s : LaserBeamManager) : LaserBeamManager :=
  if s.atBeamPosition_ && s.laserState_ then
    { s with
      filteredValues_ := Function.update s.filteredValues_ s.currentBeamIndex_
        (ApplyLowPassFilter (s.filteredValues_ s.currentBeamIndex_)
          (s.sensorValues_ s.currentBeamIndex_) FILTER_ALPHA) }
  else s

/-- `CalculateVelocity` (lines 463-476).  The conversion of the threshold to
`float`, the difference, the quotient, the square and the product with
`126.0f` are each rounded to single precision; `fmaxf` and `fminf` are exact.
With a threshold of 0 the source divides by `0.0f`; the quotient below is
then 0. -/
def CalculateVelocity (s : LaserBeamManager) (analogValue : ℚ) (beamIndex : Nat) : Nat :=
  let threshold : ℚ := f32 (s.thresholds_ beamIndex : ℚ)
  let breakDepth : ℚ := f32 (f32 (threshold - analogValue) / threshold)
  let breakDepth : ℚ := max 0 (min 1 breakDepth)
  let velocity : ℚ := f32 (breakDepth * breakDepth)
  (truncU8 (f32 (velocity * 126)) + 1) % 256

/-- `ProcessBeamStates` (lines 408-440); `now` is the clock value it reads and
`nowEvent` the one read by `QueueEvent`. -/
def ProcessBeamStates (s : LaserBeamManager) (now nowEvent : Nat) : LaserBeamManager :=
  if !s.atBeamPosition_ || !s.laserState_ then
    s
  else
    let beamIndex := s.currentBeamIndex_
    let sensorValue := s.filteredValues_ beamIndex
    let threshold := s.thresholds_ beamIndex
    let beamBroken : Bool := decide (sensorValue ≤ (threshold : ℚ))
    let previousState : Bool := s.beamStates_ beamIndex
    let currentTime := now % U32
    if beamBroken != previousState then
      if sub32 currentTime (s.lastStateChange_ beamIndex) > DEBOUNCE_TIME_MS * 1000 then
        let s1 :=
          { s with
            beamStates_ := Function.update s.beamStates_ beamIndex beamBroken
            lastStateChange_ := Function.update s.lastStateChange_ beamIndex currentTime }
        if beamBroken && !previousState then
          QueueEvent s1 BeamEventType.BEAM_BROKEN beamIndex
            (CalculateVelocity s1 sensorValue beamIndex) sensorValue nowEvent
        else if !beamBroken && previousState then
          QueueEvent s1 BeamEventType.BEAM_RESTORED beamIndex 0 sensorValue nowEvent
        else s1
      else s
    else s

/-- `DetectBeamEvents` (lines 517-519), an empty body. -/
def DetectBeamEvents (s : LaserBeamManager) : LaserBeamManager :=
  s

/-- `LoadConfigurationParameters` (lines 443-460). -/
def LoadConfigurationParameters (s : LaserBeamManager) : LaserBeamManager :=
  match s.config_ with
  | none => s
  | some cfg =>
    let s1 :=
      if cfg.numBeams > 0 ∧ cfg.numBeams ≤ 16 then
        { s with stepsPerBeam_ := STEPS_PER_REVOLUTION / (cfg.numBeams : Int) }
      else s
    { s1 with
      thresholds_ := (List.range cfg.numBeams).foldl
        (fun th i =>
          if cfg.sensorThresholds i > 0 then
            Function.update th i (cfg.sensorThresholds i % 65536)
          else th)
        s1.thresholds_ }

/-- `CalculateThresholds` (lines 548-558).  The sum, the mean and the product
with `0.85f` are `float` operations, each rounded to single precision; the
sample count is converted to `float` exactly.  With a sample count of 0 the
source divides `0.0f` by `0.0f` and converts the result (not a number) to
`uint16_t`, which has no defined value; the quotient below is then 0. -/
def CalculateThresholds (s : LaserBeamManager) : LaserBeamManager :=
  let sum : ℚ := (List.range s.calibrationSampleCount_).foldl
    (fun acc i => f32 (acc + s.calibrationValues_ s.calibrationBeam_ i)) 0
  let average : ℚ := f32 (sum / (s.calibrationSampleCount_ : ℚ))
  { s with
    thresholds_ := Function.update s.thresholds_ s.calibrationBeam_
      (truncU16 (f32 (average * f32 (85 / 100)))) }

/-- `ProcessCalibration` (lines 525-546).  Nothing bounds `calibrationBeam_`:
with an active beam of 16 or more the source writes outside the 16 rows of
`calibrationValues_` and reads outside `sensorValues_`, which is undefined;
the maps below have a cell of their own for every index. -/
def ProcessCalibration (s : LaserBeamManager) : LaserBeamManager :=
  if !s.isCalibrating_ then
    s
  else if s.calibrationSampleCount_ < 100 then
    { s with
      calibrationValues_ := Function.update s.calibrationValues_ s.calibrationBeam_
        (Function.update (s.calibrationValues_ s.calibrationBeam_)
          s.calibrationSampleCount_ (s.sensorValues_ s.calibrationBeam_))
      calibrationSampleCount_ := s.calibrationSampleCount_ + 1 }
  else
    let s1 := CalculateThresholds s
    let s2 :=
      { s1 with
        calibrationBeam_ := (s1.calibrationBeam_ + 1) % 256
        calibrationSampleCount_ := 0 }
    if s2.calibrationBeam_ ≥ GetActiveBeamCount s2 then EndCalibration s2 else s2

/-- `ResetCalibrationData` (lines 560-563). -/
def ResetCalibrationData (s : LaserBeamManager) : LaserBeamManager :=
  { s with calibrationBeam_ := 0, calibrationSampleCount_ := 0 }

/-- `MapAngleToBeam` (lines 565-568). -/
def MapAngleToBeam (angle : ℚ) (numBeams : Nat) : ℚ :=
  angle / 360 * (numBeams : ℚ)

/-- `Update` (lines 76-100). -/
def Update (s : LaserBeamManager) (inp : TickInput) : LaserBeamManager :=
  let currentTime := inp.now % U32
  if sub32 currentTime s.lastUpdateTime_ ≥ s.updateInterval_ then
    let s1 := ReadSensors s inp.adc
    let s2 := FilterSensorValues s1
    let s3 := UpdateServo s2 inp.nowServo
    let s4 := ProcessBeamStates s3 inp.nowProcess inp.nowEvent
    let s5 := DetectBeamEvents s4
    let s6 := if s5.isCalibrating_ then ProcessCalibration s5 else s5
    { s6 with lastUpdateTime_ := currentTime }
  else s

/-- `Init` (lines 57-73); `clk` is the clock as read by `StartScanning`. -/
def Init (s : LaserBeamManager) (config : Option LaserHarpConfig) (clk : Nat → Nat) :
    LaserBeamManager :=
  let s1 := { s with config_ := config }
  let s2 := InitializeServo s1
  let s3 := InitializeADC s2
  let s4 := InitializeGPIO s3
  let s5 := if s4.config_.isSome then LoadConfigurationParameters s4 else s4
  StartScanning s5 clk

/-! ## Callers: sequences of public calls -/

/-- One call of a public member function that changes the object. -/
inductive Op where
  | Init (config : Option LaserHarpConfig) (clk : Nat → Nat)
  | Update (inp : TickInput)
  | GetNextEvent (event : BeamEvent)
  | ClearEvents
  | StartCalibration
  | EndCalibration
  | CalibrateCurrentBeam
  | StartScanning (clk : Nat → Nat)
  | StopScanning
  | SetServoPosition (angle : ℚ)
  | SetSensorThreshold (sensorIndex threshold : Nat)

/-- The object after one public call. -/
def Op.apply (s : LaserBeamManager) : Op → LaserBeamManager
  | Op.Init config clk => LaserHarp.Init s config clk
  | Op.Update inp => LaserHarp.Update s inp
  | Op.GetNextEvent event => (LaserHarp.GetNextEvent s event).2.2
  | Op.ClearEvents => LaserHarp.ClearEvents s
  | Op.StartCalibration => LaserHarp.StartCalibration s
  | Op.EndCalibration => LaserHarp.EndCalibration s
  | Op.CalibrateCurrentBeam => LaserHarp.CalibrateCurrentBeam s
  | Op.StartScanning clk => LaserHarp.StartScanning s clk
  | Op.StopScanning => LaserHarp.StopScanning s
  | Op.SetServoPosition angle => LaserHarp.SetServoPosition s angle
  | Op.SetSensorThreshold i v => LaserHarp.SetSensorThreshold s i v

/-- The object after a sequence of public calls. -/
def runOps (s : LaserBeamManager) (ops : List Op) : LaserBeamManager :=
  ops.foldl Op.apply s

/-- The object after a sequence of `Update` calls. -/
def runTicks (s : LaserBeamManager) (inps : List TickInput) : LaserBeamManager :=
  inps.foldl Update s

/-! ## The event queue seen as a list -/

/-- The events held by the ring buffer, oldest first: the `eventQueueCount_`
cells from `eventQueueHead_` on, wrapping around. -/
def pendingEvents (s : LaserBeamManager) : List BeamEvent :=
  (List.range s.eventQueueCount_).map
    (fun i => s.eventQueue_ ((s.eventQueueHead_ + i) % EVENT_QUEUE_SIZE))

/-- The indices of the ring buffer are consistent. -/
def QueueInv (s : LaserBeamManager) : Prop :=
  s.eventQueueCount_ ≤ 32 ∧ s.eventQueueHead_ < 32 ∧ s.eventQueueTail_ < 32 ∧
    s.eventQueueTail_ = (s.eventQueueHead_ + s.eventQueueCount_) % 32

/-- Arguments of one `QueueEvent` call, with the clock value it reads. -/
structure PushArgs where
  type : BeamEventType
  beam : Nat
  velocity : Nat
  analogValue : ℚ
  now : Nat

/-- The `QueueEvent` call with the given arguments. -/
def PushArgs.call (s : LaserBeamManager) (a : PushArgs) : LaserBeamManager :=
  QueueEvent s a.type a.beam a.velocity a.analogValue a.now

/-- The event a `QueueEvent` call with these arguments is about. -/
def PushArgs.event (a : PushArgs) : BeamEvent :=
  { type := a.type, beamIndex := a.beam, velocity := a.velocity,
    timestamp := a.now % U32, analogValue := a.analogValue }

/-- A run of `QueueEvent` calls with no other call in between. -/
def pushAll (s : LaserBeamManager) (l : List PushArgs) : LaserBeamManager :=
  l.foldl PushArgs.call s

/-- A call on the queue: `QueueEvent`, `GetNextEvent` on the caller's event
object, or `HasEvents`. -/
inductive QueueCall where
  | push (a : PushArgs)
  | pop (event : BeamEvent)
  | hasEvents

/-- What the caller sees of a call on the queue. -/
inductive QueueResult where
  | pushed
  | popped (ok : Bool) (event : BeamEvent)
  | has (b : Bool)
  deriving DecidableEq

/-- One call on the queue of the object. -/
def callQueue (s : LaserBeamManager) : QueueCall → QueueResult × LaserBeamManager
  | QueueCall.push a => (QueueResult.pushed, a.call s)
  | QueueCall.pop event =>
    (QueueResult.popped (GetNextEvent s event).1 (GetNextEvent s event).2.1,
      (GetNextEvent s event).2.2)
  | QueueCall.hasEvents => (QueueResult.has (HasEvents s), s)

/-- A sequence of calls on the queue of the object: results and final object. -/
def runQueue (s : LaserBeamManager) : List QueueCall → List QueueResult × LaserBeamManager
  | [] => ([], s)
  | c :: cs =>
    ((callQueue s c).1 :: (runQueue (callQueue s c).2 cs).1,
      (runQueue (callQueue s c).2 cs).2)

/-! ### The bounded first-in first-out list of the specification -/

/-- Specification of `push`: the event goes to the back unless the list
already holds 32 events, in which case the list is unchanged. -/
def BoundedFifo.push (q : List BeamEvent) (e : BeamEvent) : List BeamEvent :=
  if q.length < 32 then q ++ [e] else q

/-- Specification of `pop`: the oldest event leaves the list; on the empty
list nothing is returned and the caller's event is left alone. -/
def BoundedFifo.pop (q : List BeamEvent) (event : BeamEvent) :
    Bool × BeamEvent × List BeamEvent :=
  match q with
  | [] => (false, event, [])
  | e :: rest => (true, e, rest)

/-- Specification of `hasEvents`: some event is pending. -/
def BoundedFifo.hasEvents (q : List BeamEvent) : Bool :=
  !q.isEmpty

/-- One call on the specification list. -/
def BoundedFifo.call (q : List BeamEvent) : QueueCall → QueueResult × List BeamEvent
  | QueueCall.push a => (QueueResult.pushed, BoundedFifo.push q a.event)
  | QueueCall.pop event =>
    (QueueResult.popped (BoundedFifo.pop q event).1 (BoundedFifo.pop q event).2.1,
      (BoundedFifo.pop q event).2.2)
  | QueueCall.hasEvents => (QueueResult.has (BoundedFifo.hasEvents q), q)

/-- A sequence of calls on the specification list. -/
def BoundedFifo.run (q : List BeamEvent) :
    List QueueCall → List QueueResult × List BeamEvent
  | [] => ([], q)
  | c :: cs =>
    ((BoundedFifo.call q c).1 :: (BoundedFifo.run (BoundedFifo.call q c).2 cs).1,
      (BoundedFifo.run (BoundedFifo.call q c).2 cs).2)

/-! ## Sample data -/

/-- An event buffer filled with one fixed event. -/
def sampleBuffer : Nat → BeamEvent :=
  fun _ =>
    { type := BeamEventType.BEAM_CALIBRATION, beamIndex := 0, velocity := 0,
      timestamp := 0, analogValue := 0 }

/-- A freshly constructed object. -/
def freshManager : LaserBeamManager :=
  LaserBeamManager.ctor sampleBuffer (fun _ _ => 0)

/-- The arguments of the `i`-th of a run of distinct `QueueEvent` calls. -/
def samplePush (i : Nat) : PushArgs :=
  { type := BeamEventType.BEAM_BROKEN, beam := i % 16, velocity := 64,
    analogValue := 0, now := 1000 * i }

/-- Forty distinct `QueueEvent` calls. -/
def fortyPushes : List PushArgs :=
  (List.range 40).map samplePush

/-- An object whose queue holds 32 events. -/
def fullManager : LaserBeamManager :=
  pushAll freshManager ((List.range 32).map samplePush)

/-- The index fields of the ring buffer. -/
def queueIdx (s : LaserBeamManager) : Nat × Nat × Nat :=
  (s.eventQueueHead_, s.eventQueueTail_, s.eventQueueCount_)

/-- The member variables of the motion controller: configuration, motion
state, update interval, step position, target, time of the last step, scan
direction, beam index, steps per beam, at-position flag, arrival time and
emitter state. -/
def motionFields (s : LaserBeamManager) :
    Option LaserHarpConfig × ServoState × Nat × Int × Int × Nat × Int × Nat × Int ×
      Bool × Nat × Bool :=
  (s.config_, s.servoState_, s.updateInterval_, s.currentStepPosition_,
    s.targetStepPosition_, s.lastStepTime_, s.scanDirection_, s.currentBeamIndex_,
    s.stepsPerBeam_, s.atBeamPosition_, s.beamCheckStartTime_, s.laserState_)

/-- A configuration with seven beams and no threshold override. -/
def cfg7 : LaserHarpConfig :=
  { numBeams := 7, sensorThresholds := fun _ => 0 }

/-- The inputs of the `i`-th call of `Update` when the calls are 200 clock units
apart and the converter delivers full scale. -/
def steadyTick (i : Nat) : TickInput :=
  { now := 200 * i, nowServo := 200 * i, nowProcess := 200 * i, nowEvent := 200 * i,
    adc := 1 }

/-- The inputs of the first `k` calls of `Update`. -/
def steadyTicks (k : Nat) : List TickInput :=
  (List.range k).map (fun i => steadyTick (i + 1))

/-- The object after `Init` with seven beams at clock value 0. -/
def configured7 : LaserBeamManager :=
  Init freshManager (some cfg7) (fun _ => 0)

/-- The object after `Init` with seven beams and `k` calls of `Update`. -/
def scan7 (k : Nat) : LaserBeamManager :=
  runTicks configured7 (steadyTicks k)

/-- Arrival as the object records it: between `before` and `after` (one call of
`Update` at clock value `now`) the scan, aiming at `target`, came within one
step of it, the emitter was switched on, the at-position flag was set and the
arrival time was recorded. -/
def arrivedAtTarget (before after : LaserBeamManager) (now : Nat) (target : Int) : Prop :=
  before.targetStepPosition_ = target ∧
    |after.currentStepPosition_ - target| ≤ 1 ∧
    after.atBeamPosition_ = true ∧ after.laserState_ = true ∧
    after.beamCheckStartTime_ = now % U32

instance (before after : LaserBeamManager) (now : Nat) (target : Int) :
    Decidable (arrivedAtTarget before after now target) := by
  unfold arrivedAtTarget
  infer_instance

/-- The state after the reversal at the last of seven beams and `k` further
calls of `Update`: still scanning, moving backwards from step 167, still aiming
at step 168, with the arrival of call 167 as the last one recorded. -/
def AfterReversal (k : Nat) (s : LaserBeamManager) : Prop :=
  s.servoState_ = ServoState.SERVO_SCANNING ∧ s.updateInterval_ = 200 ∧
    s.currentStepPosition_ = 167 - (k : Int) ∧ s.targetStepPosition_ = 168 ∧
    s.lastStepTime_ = (200 * (167 + k)) % U32 ∧ s.scanDirection_ = -1 ∧
    s.currentBeamIndex_ = 6 ∧ s.beamCheckStartTime_ = 33400 ∧
    s.lastUpdateTime_ = (200 * (167 + k)) % U32

instance (k : Nat) (s : LaserBeamManager) : Decidable (AfterReversal k s) := by
  unfold AfterReversal
  infer_instance

/-- The object inside call 27 of `Update` of the seven-beam scan, after
`UpdateServo` and before `ProcessBeamStates`. -/
def beforeProcess27 : LaserBeamManager :=
  UpdateServo (FilterSensorValues (ReadSensors (scan7 26) (steadyTick 27).adc))
    (steadyTick 27).nowServo

/-! ## The specification of the intensity -/

/-- Intensity as the specification words it: the break depth is
`(threshold - filtered) / threshold` clamped to 0..1, and the intensity is the
square of the depth times 126, rounded to the nearest integer, plus 1. -/
def specIntensity (threshold filtered : ℚ) : Int :=
  round (max 0 (min 1 ((threshold - filtered) / threshold)) ^ 2 * 126) + 1

/-- Break depth as the specification defines it: the quotient
`(threshold - filtered) / threshold` in exact arithmetic, clamped to 0..1. -/
def breakDepth (threshold analogValue : ℚ) : ℚ :=
  max 0 (min 1 ((threshold - analogValue) / threshold))

/-- Break depth as `CalculateVelocity` computes it (lines 464-468): the
threshold converted to `float`, difference and quotient in single precision,
clamped to 0..1. -/
def floatDepth (threshold : Nat) (analogValue : ℚ) : ℚ :=
  max 0 (min 1 (f32 (f32 (f32 (threshold : ℚ) - analogValue) / f32 (threshold : ℚ))))

/-- The object after the writes of lines 426-427 of `ProcessBeamStates`: the
flag `b` is stored for the current beam and the time of the transition is
recorded. -/
def confirmTransition (s : LaserBeamManager) (b : Bool) (now : Nat) : LaserBeamManager :=
  { s with
    beamStates_ := Function.update s.beamStates_ s.currentBeamIndex_ b
    lastStateChange_ := Function.update s.lastStateChange_ s.currentBeamIndex_ (now % U32) }

/-- The event queued by call 27 of the seven-beam scan. -/
def restoredEvent27 : BeamEvent :=
  { type := BeamEventType.BEAM_RESTORED, beamIndex := 2, velocity := 0,
    timestamp := 5400, analogValue := 1000 }

/-- A calibration started after `Init` with seven beams, run for three calls of
`Update`, ended by `EndCalibration`, and started again. -/
def calibrationRestarted : LaserBeamManager :=
  StartCalibration (EndCalibration (runTicks (StartCalibration configured7) (steadyTicks 3)))

/-- A calibration started after `Init` with seven beams and run for 707 calls
of `Update` (seven beams, 100 samples and one evaluation each). -/
def calibrationCompleted : LaserBeamManager :=
  runTicks (StartCalibration configured7) (steadyTicks 707)

/-- A configuration with one beam and no threshold override. -/
def cfg1 : LaserHarpConfig :=
  { numBeams := 1, sensorThresholds := fun _ => 0 }

/-- A calibration started after `Init` with seven beams and ended by
`EndCalibration` after one call of `Update`. -/
def calibrationEnded : LaserBeamManager :=
  EndCalibration (runTicks (StartCalibration configured7) (steadyTicks 1))

/-- A calibration started after `Init` with one beam and run for 101 calls of
`Update` (100 samples and one evaluation). -/
def calibrationCompleted1 : LaserBeamManager :=
  runTicks (StartCalibration (Init freshManager (some cfg1) (fun _ => 0))) (steadyTicks 101)

/-- One evaluation of `ProcessCalibration` with the raw sample `v` in the cell
of the active calibration beam. -/
def feedSample (s : LaserBeamManager) (v : ℚ) : LaserBeamManager :=
  ProcessCalibration
    { s with sensorValues_ := Function.update s.sensorValues_ s.calibrationBeam_ v }

/-- A run of `feedSample`, one call per sample. -/
def feedSamples (s : LaserBeamManager) (l : List ℚ) : LaserBeamManager :=
  l.foldl feedSample s

/-- The samples stored so far for the active calibration beam. -/
def storedSamples (s : LaserBeamManager) : List ℚ :=
  (List.range s.calibrationSampleCount_).map (s.calibrationValues_ s.calibrationBeam_)

/-- Every call of `Update` in the sequence passes the interval test of line 80
and so runs the body of `Update`. -/
def allDue (s : LaserBeamManager) : List TickInput → Bool
  | [] => true
  | inp :: rest =>
    decide (sub32 (inp.now % U32) s.lastUpdateTime_ ≥ s.updateInterval_) &&
      allDue (Update s inp) rest

/-- The member variables of the calibration: configuration, calibrating flag,
active beam, sample count, sample buffer and thresholds. -/
def calFrame (s : LaserBeamManager) :
    Option LaserHarpConfig × Bool × Nat × Nat × (Nat → Nat → ℚ) × (Nat → Nat) :=
  (s.config_, s.isCalibrating_, s.calibrationBeam_, s.calibrationSampleCount_,
    s.calibrationValues_, s.thresholds_)

/-- Progress of a calibration of `n` beams after `p` evaluations of
`ProcessCalibration`: each beam takes 100 samples and one evaluation of the
threshold; after `101 * n` the calibration is over. -/
def CalPhase (n p : Nat) (s : LaserBeamManager) : Prop :=
  GetActiveBeamCount s = n ∧
    s.isCalibrating_ = decide (p < 101 * n) ∧
    s.calibrationBeam_ = min (p / 101) n ∧
    s.calibrationSampleCount_ = if p < 101 * n then p % 101 else 0

/-- Motion state, at-position flag and emitter state. -/
def flagFields (s : LaserBeamManager) : ServoState × Bool × Bool :=
  (s.servoState_, s.atBeamPosition_, s.laserState_)

/-- The motion state is Idle or Scanning, and the at-position flag is only set
with the emitter on. -/
def FlagInv (s : LaserBeamManager) : Prop :=
  (s.servoState_ = ServoState.SERVO_IDLE ∨ s.servoState_ = ServoState.SERVO_SCANNING) ∧
    (s.atBeamPosition_ = true → s.laserState_ = true)

/-- The member variables of the sensing side that neither the motion
controller nor the calibration writes: raw and filtered values, stored beam
states, transition times and the event queue. -/
def sensingFields (s : LaserBeamManager) :
    (Nat → ℚ) × (Nat → ℚ) × (Nat → Bool) × (Nat → Nat) × (Nat → BeamEvent) × Nat × Nat × Nat :=
  (s.sensorValues_, s.filteredValues_, s.beamStates_, s.lastStateChange_, s.eventQueue_,
    s.eventQueueHead_, s.eventQueueTail_, s.eventQueueCount_)

/-- The object after `Init` with seven beams, `StartCalibration` and `k` calls
of `Update`. -/
def calibrating7 (k : Nat) : LaserBeamManager :=
  runTicks (StartCalibration configured7) (steadyTicks k)

/-! ## The events of one beam -/

/-- Stored beam states and event queue. -/
def eventFrame (s : LaserBeamManager) : (Nat → Bool) × (Nat → BeamEvent) × Nat × Nat × Nat :=
  (s.beamStates_, s.eventQueue_, s.eventQueueHead_, s.eventQueueTail_, s.eventQueueCount_)

/-- This call of `Update` drops an event: the stored state of the beam under
examination changes and the queue does not grow. -/
def dropped (s : LaserBeamManager) (inp : TickInput) : Bool :=
  decide ((Update s inp).eventQueueCount_ = s.eventQueueCount_) &&
    ((Update s inp).beamStates_ (Update s inp).currentBeamIndex_ !=
      s.beamStates_ (Update s inp).currentBeamIndex_)

/-- No call of `Update` in the sequence drops an event. -/
def noDrop (s : LaserBeamManager) : List TickInput → Bool
  | [] => true
  | inp :: rest => !dropped s inp && noDrop (Update s inp) rest

/-- The events of beam `i` in a list of events. -/
def eventsOf (i : Nat) (l : List BeamEvent) : List BeamEvent :=
  l.filter (fun e => decide (e.beamIndex = i))

/-- No two consecutive events of the list have the same type. -/
def alternates (l : List BeamEvent) : Prop :=
  List.Chain' (fun a b => a.type ≠ b.type) l

/-- The events queued between the states `s` and `t` when nothing was taken
from the queue. -/
def enqueuedSince (s t : LaserBeamManager) : List BeamEvent :=
  (pendingEvents t).drop s.eventQueueCount_

/-- The events of beam `i` in the log alternate and the last of them matches
the stored flag `st i`: Broken when the flag is set, Restored when it is not. -/
def LogInv (i : Nat) (log : List BeamEvent) (st : Nat → Bool) : Prop :=
  alternates (eventsOf i log) ∧
    ∀ e, (eventsOf i log).getLast? = some e →
      e.type = (if st i = true then BeamEventType.BEAM_BROKEN else BeamEventType.BEAM_RESTORED)

/-- The object after `Init` with one beam at clock value 0. -/
def configured1 : LaserBeamManager :=
  Init freshManager (some cfg1) (fun _ => 0)

/-- Sixty calls of `Update` 200 clock units apart, the converter at full scale
for the first 30 and at 0 for the others. -/
def fadingTicks : List TickInput :=
  (List.range 60).map (fun i =>
    { now := 200 * (i + 1), nowServo := 200 * (i + 1), nowProcess := 200 * (i + 1),
      nowEvent := 200 * (i + 1), adc := if i < 30 then 1 else 0 })

/-! ## Repeated calibrations -/

theorem pendingEvents_length (s : LaserBeamManager) :
    (pendingEvents s).length = s.eventQueueCount_ := by
  simp [pendingEvents]

theorem QueueEvent_full (s : LaserBeamManager) (type : BeamEventType) (beam velocity : Nat)
    (analogValue : ℚ) (now : Nat) (h : 32 ≤ s.eventQueueCount_) :
    QueueEvent s type beam velocity analogValue now = s := by
  simp [QueueEvent, IsEventQueueFull, EVENT_QUEUE_SIZE, h]

theorem QueueInv_QueueEvent (s : LaserBeamManager) (type : BeamEventType)
    (beam velocity : Nat) (analogValue : ℚ) (now : Nat) (h : QueueInv s) :
    QueueInv (QueueEvent s type beam velocity analogValue now) := by
  unfold QueueEvent IsEventQueueFull
  obtain ⟨h1, h2, h3, h4⟩ := h
  by_cases hc : s.eventQueueCount_ ≥ EVENT_QUEUE_SIZE
  · simp only [hc, decide_True, if_true]
    exact ⟨h1, h2, h3, h4⟩
  · simp only [hc, decide_False, Bool.false_eq_true, if_false]
    simp only [EVENT_QUEUE_SIZE, ge_iff_le, not_le] at hc
    simp only [QueueInv, EVENT_QUEUE_SIZE]
    omega

theorem pendingEvents_QueueEvent (s : LaserBeamManager) (type : BeamEventType)
    (beam velocity : Nat) (analogValue : ℚ) (now : Nat) (h : QueueInv s) :
    pendingEvents (QueueEvent s type beam velocity analogValue now) =
      BoundedFifo.push (pendingEvents s)
        { type := type, beamIndex := beam, velocity := velocity,
          timestamp := now % U32, analogValue := analogValue } := by
  unfold QueueEvent IsEventQueueFull BoundedFifo.push
  obtain ⟨h1, h2, h3, h4⟩ := h
  rw [pendingEvents_length]
  by_cases hc : s.eventQueueCount_ ≥ EVENT_QUEUE_SIZE
  · have hn : ¬ s.eventQueueCount_ < 32 := by
      simp only [EVENT_QUEUE_SIZE] at hc; omega
    simp only [hc, decide_True, if_true, hn, if_false]
  · have hn : s.eventQueueCount_ < 32 := by
      simp only [EVENT_QUEUE_SIZE] at hc; omega
    simp only [hc, decide_False, Bool.false_eq_true, if_false, hn, if_true]
    simp only [pendingEvents, List.range_succ, List.map_append, List.map_cons, List.map_nil,
      EVENT_QUEUE_SIZE]
    congr 1
    · apply List.map_congr_left
      intro i hi
      rw [List.mem_range] at hi
      apply Function.update_noteq
      omega
    · rw [← h4, Function.update_same]

theorem QueueInv_GetNextEvent (s : LaserBeamManager) (event : BeamEvent) (h : QueueInv s) :
    QueueInv (GetNextEvent s event).2.2 := by
  unfold GetNextEvent
  obtain ⟨h1, h2, h3, h4⟩ := h
  by_cases hc : s.eventQueueCount_ = 0
  · simp only [hc, if_true]
    exact ⟨by omega, h2, h3, by omega⟩
  · simp only [hc, if_false, QueueInv, EVENT_QUEUE_SIZE]
    omega

theorem GetNextEvent_nonempty (s : LaserBeamManager) (event : BeamEvent)
    (h : s.eventQueueCount_ ≠ 0) :
    GetNextEvent s event =
      (true, s.eventQueue_ s.eventQueueHead_,
        { s with
          eventQueueHead_ := (s.eventQueueHead_ + 1) % EVENT_QUEUE_SIZE
          eventQueueCount_ := s.eventQueueCount_ - 1 }) := by
  simp [GetNextEvent, h]

theorem GetNextEvent_empty (s : LaserBeamManager) (event : BeamEvent)
    (h : s.eventQueueCount_ = 0) :
    GetNextEvent s event = (false, event, s) := by
  simp [GetNextEvent, h]

theorem pendingEvents_GetNextEvent (s : LaserBeamManager) (event : BeamEvent)
    (h : QueueInv s) :
    ((GetNextEvent s event).1, (GetNextEvent s event).2.1,
        pendingEvents (GetNextEvent s event).2.2) =
      BoundedFifo.pop (pendingEvents s) event := by
  obtain ⟨h1, h2, h3, h4⟩ := h
  by_cases hc : s.eventQueueCount_ = 0
  · rw [GetNextEvent_empty s event hc]
    simp [hc, pendingEvents, BoundedFifo.pop]
  · rw [GetNextEvent_nonempty s event hc]
    obtain ⟨n, hn⟩ := Nat.exists_eq_succ_of_ne_zero hc
    simp only [pendingEvents, hn, Nat.succ_sub_one, List.range_succ_eq_map,
      List.map_cons, List.map_map, BoundedFifo.pop, EVENT_QUEUE_SIZE, Nat.add_zero]
    rw [Nat.mod_eq_of_lt h2]
    congr 2
    apply List.map_congr_left
    intro i _
    simp only [Function.comp]
    congr 1
    omega

theorem BoundedFifo.push_eq_take (q : List BeamEvent) (e : BeamEvent) (h : q.length ≤ 32) :
    BoundedFifo.push q e = (q ++ [e]).take 32 := by
  unfold BoundedFifo.push
  by_cases hc : q.length < 32
  · rw [if_pos hc, List.take_of_length_le]
    simp only [List.length_append, List.length_singleton]
    omega
  · rw [if_neg hc]
    have hq : q.length = 32 := by omega
    rw [← hq, List.take_left]

theorem pushAll_spec (l : List PushArgs) (s : LaserBeamManager) (h : QueueInv s) :
    QueueInv (pushAll s l) ∧
      pendingEvents (pushAll s l) = (pendingEvents s ++ l.map PushArgs.event).take 32 := by
  induction l generalizing s with
  | nil =>
    refine ⟨h, ?_⟩
    simp only [pushAll, List.foldl_nil, List.map_nil, List.append_nil]
    rw [List.take_of_length_le]
    rw [pendingEvents_length]
    exact h.1
  | cons a l ih =>
    have hs : QueueInv (a.call s) := QueueInv_QueueEvent s _ _ _ _ _ h
    obtain ⟨i1, i2⟩ := ih (a.call s) hs
    refine ⟨i1, ?_⟩
    have hlen : (pendingEvents s).length ≤ 32 := by
      rw [pendingEvents_length]; exact h.1
    have hp : pendingEvents (a.call s) = BoundedFifo.push (pendingEvents s) a.event :=
      pendingEvents_QueueEvent s _ _ _ _ _ h
    change pendingEvents (pushAll (a.call s) l) = _
    rw [i2, hp, List.map_cons]
    unfold BoundedFifo.push
    by_cases hc : (pendingEvents s).length < 32
    · rw [if_pos hc, List.append_assoc, List.singleton_append]
    · rw [if_neg hc]
      have hq : (pendingEvents s).length = 32 := by omega
      rw [← hq, List.take_left, List.take_left]

theorem HasEvents_eq (s : LaserBeamManager) :
    HasEvents s = BoundedFifo.hasEvents (pendingEvents s) := by
  unfold HasEvents BoundedFifo.hasEvents pendingEvents
  cases hc : s.eventQueueCount_ with
  | zero => simp
  | succ n => simp [List.range_succ_eq_map]

theorem callQueue_refines (s : LaserBeamManager) (c : QueueCall) (h : QueueInv s) :
    (callQueue s c).1 = (BoundedFifo.call (pendingEvents s) c).1 ∧
      pendingEvents (callQueue s c).2 = (BoundedFifo.call (pendingEvents s) c).2 ∧
      QueueInv (callQueue s c).2 := by
  cases c with
  | push a =>
    exact ⟨rfl, pendingEvents_QueueEvent s _ _ _ _ _ h, QueueInv_QueueEvent s _ _ _ _ _ h⟩
  | pop event =>
    have hp := pendingEvents_GetNextEvent s event h
    simp only [callQueue, BoundedFifo.call]
    rw [← hp]
    exact ⟨rfl, rfl, QueueInv_GetNextEvent s event h⟩
  | hasEvents =>
    exact ⟨congrArg QueueResult.has (HasEvents_eq s), rfl, h⟩

theorem runQueue_refines (calls : List QueueCall) (s : LaserBeamManager) (h : QueueInv s) :
    (runQueue s calls).1 = (BoundedFifo.run (pendingEvents s) calls).1 ∧
      pendingEvents (runQueue s calls).2 = (BoundedFifo.run (pendingEvents s) calls).2 := by
  induction calls generalizing s with
  | nil => exact ⟨rfl, rfl⟩
  | cons c cs ih =>
    obtain ⟨h1, h2, h3⟩ := callQueue_refines s c h
    obtain ⟨i1, i2⟩ := ih (callQueue s c).2 h3
    simp only [runQueue, BoundedFifo.run]
    rw [i1, i2, h1, h2]
    exact ⟨rfl, rfl⟩

theorem QueueInv_freshManager : QueueInv freshManager := by
  simp [QueueInv, freshManager, LaserBeamManager.ctor]

/-! ## Claims on the event queue -/

/-- C1: a `QueueEvent` call on a queue that holds 32 events returns the object
unchanged (head, tail, count and every stored event), and after more than 32
`QueueEvent` calls in a row on an empty queue the queue holds exactly the
first 32 events pushed, in that order. -/
theorem queueEvent_full_drops_newest (s : LaserBeamManager) (a : PushArgs)
    (s0 : LaserBeamManager) (pushes : List PushArgs)
    (hfull : s.eventQueueCount_ = 32)
    (hinv : QueueInv s0) (hempty : s0.eventQueueCount_ = 0)
    (hlen : 32 < pushes.length) :
    QueueEvent s a.type a.beam a.velocity a.analogValue a.now = s ∧
      pendingEvents (pushAll s0 pushes) = (pushes.take 32).map PushArgs.event ∧
      (pushAll s0 pushes).eventQueueCount_ = 32 := by
  have hp := (pushAll_spec pushes s0 hinv).2
  have h0 : pendingEvents s0 = [] := by simp [pendingEvents, hempty]
  rw [h0, List.nil_append, ← List.map_take] at hp
  refine ⟨QueueEvent_full s _ _ _ _ _ (by omega), hp, ?_⟩
  rw [← pendingEvents_length, hp, List.length_map, List.length_take]
  omega

set_option maxRecDepth 100000 in
/-- Witness of C1: forty pushes onto a fresh object, and one more push onto
an object holding 32 events. -/
theorem queueEvent_full_drops_newest_witness :
    QueueEvent fullManager (samplePush 32).type (samplePush 32).beam
        (samplePush 32).velocity (samplePush 32).analogValue (samplePush 32).now
        = fullManager ∧
      pendingEvents (pushAll freshManager fortyPushes) =
        (fortyPushes.take 32).map PushArgs.event ∧
      (pushAll freshManager fortyPushes).eventQueueCount_ = 32 :=
  queueEvent_full_drops_newest fullManager (samplePush 32) freshManager fortyPushes
    (by decide) QueueInv_freshManager rfl (by decide)

/-- C2: started on an empty queue, every sequence of `QueueEvent`,
`GetNextEvent` and `HasEvents` calls gives the caller the same results as the
bounded first-in first-out list of the specification, and the events held by
the ring buffer are those of the list. -/
theorem eventQueue_refines_boundedFifo (s : LaserBeamManager) (calls : List QueueCall)
    (hinv : QueueInv s) (hempty : s.eventQueueCount_ = 0) :
    (runQueue s calls).1 = (BoundedFifo.run [] calls).1 ∧
      pendingEvents (runQueue s calls).2 = (BoundedFifo.run [] calls).2 := by
  have h0 : pendingEvents s = [] := by simp [pendingEvents, hempty]
  have h := runQueue_refines calls s hinv
  rw [h0] at h
  exact h

/-- Witness of C2: two pushes, three pops and the emptiness tests between. -/
theorem eventQueue_refines_boundedFifo_witness :
    (runQueue freshManager
        [QueueCall.push (samplePush 1), QueueCall.push (samplePush 2), QueueCall.hasEvents,
          QueueCall.pop (samplePush 0).event, QueueCall.hasEvents,
          QueueCall.pop (samplePush 0).event, QueueCall.hasEvents,
          QueueCall.pop (samplePush 0).event]).1 =
      (BoundedFifo.run []
        [QueueCall.push (samplePush 1), QueueCall.push (samplePush 2), QueueCall.hasEvents,
          QueueCall.pop (samplePush 0).event, QueueCall.hasEvents,
          QueueCall.pop (samplePush 0).event, QueueCall.hasEvents,
          QueueCall.pop (samplePush 0).event]).1 ∧
      pendingEvents (runQueue freshManager
        [QueueCall.push (samplePush 1), QueueCall.push (samplePush 2), QueueCall.hasEvents,
          QueueCall.pop (samplePush 0).event, QueueCall.hasEvents,
          QueueCall.pop (samplePush 0).event, QueueCall.hasEvents,
          QueueCall.pop (samplePush 0).event]).2 =
      (BoundedFifo.run []
        [QueueCall.push (samplePush 1), QueueCall.push (samplePush 2), QueueCall.hasEvents,
          QueueCall.pop (samplePush 0).event, QueueCall.hasEvents,
          QueueCall.pop (samplePush 0).event, QueueCall.hasEvents,
          QueueCall.pop (samplePush 0).event]).2 :=
  eventQueue_refines_boundedFifo freshManager _ QueueInv_freshManager rfl

/-- C4: after `ClearEvents`, whatever the queue held, `HasEvents` returns false
and `GetNextEvent` returns false, leaves the caller's event object as it was
and leaves the object as it was. -/
theorem clearEvents_then_no_event (s : LaserBeamManager) (event : BeamEvent) :
    HasEvents (ClearEvents s) = false ∧
      GetNextEvent (ClearEvents s) event = (false, event, ClearEvents s) := by
  constructor
  · simp [HasEvents, ClearEvents]
  · simp [GetNextEvent, ClearEvents]

/-! ## The queue indices under the other member functions -/

theorem QueueInv_of_queueIdx (s t : LaserBeamManager) (h : queueIdx t = queueIdx s)
    (hs : QueueInv s) : QueueInv t := by
  simp only [queueIdx, Prod.mk.injEq] at h
  obtain ⟨h1, h2, h3⟩ := h
  simp only [QueueInv, h1, h2, h3]
  exact hs

theorem queueIdx_SetLaserState (s : LaserBeamManager) (b : Bool) :
    queueIdx (SetLaserState s b) = queueIdx s := rfl

theorem queueIdx_CalculateNextBeamPosition (s : LaserBeamManager) :
    queueIdx (CalculateNextBeamPosition s) = queueIdx s := by
  unfold CalculateNextBeamPosition
  simp only [queueIdx]
  split_ifs <;> rfl

theorem queueIdx_UpdateScanningMotion (s : LaserBeamManager) (t : Nat) :
    queueIdx (UpdateScanningMotion s t) = queueIdx s := by
  have hc := fun x => queueIdx_CalculateNextBeamPosition x
  simp only [queueIdx, Prod.mk.injEq] at hc
  unfold UpdateScanningMotion MakeStep SetLaserState GetCurrentBeamIndex
  simp only [queueIdx]
  split_ifs <;> simp only [hc]

theorem queueIdx_UpdateServo (s : LaserBeamManager) (now : Nat) :
    queueIdx (UpdateServo s now) = queueIdx s := by
  unfold UpdateServo UpdateCalibrationMotion
  split
  all_goals first
    | rfl
    | exact queueIdx_UpdateScanningMotion _ _

theorem queueIdx_FilterSensorValues (s : LaserBeamManager) :
    queueIdx (FilterSensorValues s) = queueIdx s := by
  unfold FilterSensorValues
  split_ifs <;> rfl

theorem queueIdx_ProcessCalibration (s : LaserBeamManager) :
    queueIdx (ProcessCalibration s) = queueIdx s := by
  unfold ProcessCalibration
  simp only []
  split_ifs <;> rfl

theorem queueIdx_LoadConfigurationParameters (s : LaserBeamManager) :
    queueIdx (LoadConfigurationParameters s) = queueIdx s := by
  unfold LoadConfigurationParameters
  split
  · rfl
  · simp only []
    split_ifs <;> rfl

theorem queueIdx_Init (s : LaserBeamManager) (config : Option LaserHarpConfig)
    (clk : Nat → Nat) : queueIdx (Init s config clk) = queueIdx s := by
  unfold Init
  simp only []
  split_ifs
  · exact queueIdx_LoadConfigurationParameters _
  · rfl

theorem QueueInv_ProcessBeamStates (s : LaserBeamManager) (now nowEvent : Nat)
    (h : QueueInv s) : QueueInv (ProcessBeamStates s now nowEvent) := by
  unfold ProcessBeamStates
  simp only []
  split_ifs
  all_goals first
    | exact h
    | exact QueueInv_QueueEvent _ _ _ _ _ _ h

theorem QueueInv_Update (s : LaserBeamManager) (inp : TickInput) (h : QueueInv s) :
    QueueInv (Update s inp) := by
  have h1 : QueueInv (UpdateServo (FilterSensorValues (ReadSensors s inp.adc)) inp.nowServo) := by
    apply QueueInv_of_queueIdx s _ _ h
    rw [queueIdx_UpdateServo, queueIdx_FilterSensorValues]
    rfl
  have h2 := QueueInv_ProcessBeamStates _ inp.nowProcess inp.nowEvent h1
  unfold Update DetectBeamEvents
  simp only []
  split_ifs
  · exact QueueInv_of_queueIdx _ _ (queueIdx_ProcessCalibration _) h2
  · exact h2
  · exact h

theorem QueueInv_apply (s : LaserBeamManager) (op : Op) (h : QueueInv s) :
    QueueInv (op.apply s) := by
  cases op with
  | Init config clk => exact QueueInv_of_queueIdx s _ (queueIdx_Init s config clk) h
  | Update inp => exact QueueInv_Update s inp h
  | GetNextEvent event => exact QueueInv_GetNextEvent s event h
  | ClearEvents => simp [Op.apply, QueueInv, ClearEvents]
  | StartCalibration => exact h
  | EndCalibration => exact h
  | CalibrateCurrentBeam => exact h
  | StartScanning clk => exact h
  | StopScanning => exact h
  | SetServoPosition angle => exact h
  | SetSensorThreshold i v =>
    simp only [Op.apply, SetSensorThreshold]
    split_ifs
    · exact h
    · exact h

theorem QueueInv_runOps (ops : List Op) (s : LaserBeamManager) (h : QueueInv s) :
    QueueInv (runOps s ops) := by
  induction ops generalizing s with
  | nil => exact h
  | cons op ops ih => exact ih (op.apply s) (QueueInv_apply s op h)

/-- C3: in every state reached from the constructor by public calls (`Init`,
`Update`, `GetNextEvent`, `ClearEvents`, the scanning, calibration and
threshold calls) the queue holds at most 32 events, head and tail are below 32
and the tail is head plus count modulo 32. -/
theorem eventQueue_never_exceeds_capacity (q0 : Nat → BeamEvent) (c0 : Nat → Nat → ℚ)
    (ops : List Op) :
    (runOps (LaserBeamManager.ctor q0 c0) ops).eventQueueCount_ ≤ 32 ∧
      (runOps (LaserBeamManager.ctor q0 c0) ops).eventQueueHead_ < 32 ∧
      (runOps (LaserBeamManager.ctor q0 c0) ops).eventQueueTail_ < 32 ∧
      (runOps (LaserBeamManager.ctor q0 c0) ops).eventQueueTail_ =
        ((runOps (LaserBeamManager.ctor q0 c0) ops).eventQueueHead_ +
          (runOps (LaserBeamManager.ctor q0 c0) ops).eventQueueCount_) % 32 :=
  QueueInv_runOps ops (LaserBeamManager.ctor q0 c0)
    (by simp [QueueInv, LaserBeamManager.ctor])

/-! ## The motion controller under the sensor and calibration functions -/

theorem motionFields_ReadSensors (s : LaserBeamManager) (r : ℚ) :
    motionFields (ReadSensors s r) = motionFields s := rfl

theorem motionFields_FilterSensorValues (s : LaserBeamManager) :
    motionFields (FilterSensorValues s) = motionFields s := by
  unfold FilterSensorValues
  split_ifs <;> rfl

theorem motionFields_QueueEvent (s : LaserBeamManager) (type : BeamEventType)
    (beam velocity : Nat) (analogValue : ℚ) (now : Nat) :
    motionFields (QueueEvent s type beam velocity analogValue now) = motionFields s := by
  unfold QueueEvent
  split_ifs <;> rfl

theorem motionFields_ProcessBeamStates (s : LaserBeamManager) (now nowEvent : Nat) :
    motionFields (ProcessBeamStates s now nowEvent) = motionFields s := by
  unfold ProcessBeamStates
  simp only []
  split_ifs
  all_goals first
    | rfl
    | exact motionFields_QueueEvent _ _ _ _ _ _

theorem motionFields_ProcessCalibration (s : LaserBeamManager) :
    motionFields (ProcessCalibration s) = motionFields s := by
  unfold ProcessCalibration
  simp only []
  split_ifs <;> rfl

theorem motionFields_Update (s : LaserBeamManager) (inp : TickInput) :
    motionFields (Update s inp) = motionFields s ∨
      motionFields (Update s inp) =
        motionFields (UpdateServo (FilterSensorValues (ReadSensors s inp.adc)) inp.nowServo) := by
  have h2 := motionFields_ProcessBeamStates
    (UpdateServo (FilterSensorValues (ReadSensors s inp.adc)) inp.nowServo)
    inp.nowProcess inp.nowEvent
  unfold Update DetectBeamEvents
  simp only []
  split_ifs
  · right
    exact (motionFields_ProcessCalibration _).trans h2
  · right
    exact h2
  · left
    rfl

/-! ## The beam index -/

theorem Update_due (s : LaserBeamManager) (inp : TickInput)
    (h : sub32 (inp.now % U32) s.lastUpdateTime_ ≥ s.updateInterval_) :
    motionFields (Update s inp) =
        motionFields (UpdateServo (FilterSensorValues (ReadSensors s inp.adc)) inp.nowServo) ∧
      (Update s inp).lastUpdateTime_ = inp.now % U32 := by
  have h2 := motionFields_ProcessBeamStates
    (UpdateServo (FilterSensorValues (ReadSensors s inp.adc)) inp.nowServo)
    inp.nowProcess inp.nowEvent
  unfold Update DetectBeamEvents
  simp only []
  rw [if_pos h]
  split_ifs
  · exact ⟨(motionFields_ProcessCalibration _).trans h2, rfl⟩
  · exact ⟨h2, rfl⟩

theorem UpdateServo_moving (s : LaserBeamManager) (now : Nat)
    (hs : s.servoState_ = ServoState.SERVO_SCANNING)
    (hdue : sub32 (now % U32) s.lastStepTime_ ≥ STEP_DELAY_US)
    (hfar : ¬ |s.currentStepPosition_ + s.scanDirection_ - s.targetStepPosition_| ≤ 1) :
    (UpdateServo s now).servoState_ = ServoState.SERVO_SCANNING ∧
      (UpdateServo s now).updateInterval_ = s.updateInterval_ ∧
      (UpdateServo s now).currentStepPosition_ = s.currentStepPosition_ + s.scanDirection_ ∧
      (UpdateServo s now).targetStepPosition_ = s.targetStepPosition_ ∧
      (UpdateServo s now).lastStepTime_ = now % U32 ∧
      (UpdateServo s now).scanDirection_ = s.scanDirection_ ∧
      (UpdateServo s now).currentBeamIndex_ = s.currentBeamIndex_ ∧
      (UpdateServo s now).beamCheckStartTime_ = s.beamCheckStartTime_ := by
  unfold UpdateServo
  simp only [hs]
  unfold UpdateScanningMotion
  simp only []
  rw [if_pos hdue]
  have hr : HasReachedTargetPosition { MakeStep s with lastStepTime_ := now % U32 } = false := by
    simp only [HasReachedTargetPosition, MakeStep, decide_eq_false_iff_not]
    exact hfar
  rw [hr]
  simp only [Bool.false_eq_true, if_false]
  split_ifs
  · simp only [SetLaserState, GetCurrentBeamIndex, MakeStep, hs]
    exact ⟨trivial, trivial, trivial, trivial, trivial, trivial, trivial, trivial⟩
  · simp only [MakeStep, hs]
    exact ⟨trivial, trivial, trivial, trivial, trivial, trivial, trivial, trivial⟩

theorem AfterReversal_Update (k : Nat) (s : LaserBeamManager) (h : AfterReversal k s) :
    AfterReversal (k + 1) (Update s (steadyTick (168 + k))) := by
  obtain ⟨a1, a2, a3, a4, a5, a6, a7, a8, a9⟩ := h
  have hdue : sub32 ((steadyTick (168 + k)).now % U32) s.lastUpdateTime_ ≥ s.updateInterval_ := by
    rw [a9, a2]
    simp only [steadyTick, sub32, U32]
    omega
  obtain ⟨hm, ht⟩ := Update_due s (steadyTick (168 + k)) hdue
  have h0 : motionFields (FilterSensorValues (ReadSensors s (steadyTick (168 + k)).adc)) =
      motionFields s :=
    (motionFields_FilterSensorValues _).trans (motionFields_ReadSensors s _)
  simp only [motionFields, Prod.mk.injEq] at h0
  obtain ⟨_, b2, b3, b4, b5, b6, b7, b8, _, _, b11, _⟩ := h0
  have hmove := UpdateServo_moving
    (FilterSensorValues (ReadSensors s (steadyTick (168 + k)).adc))
    (steadyTick (168 + k)).nowServo (b2.trans a1)
    (by
      rw [b6, a5]
      simp only [steadyTick, sub32, U32, STEP_DELAY_US]
      omega)
    (by
      rw [b4, b5, b7, a3, a4, a6]
      intro hle
      rw [abs_le] at hle
      omega)
  obtain ⟨c1, c2, c3, c4, c5, c6, c7, c8⟩ := hmove
  simp only [motionFields, Prod.mk.injEq] at hm
  obtain ⟨_, d2, d3, d4, d5, d6, d7, d8, _, _, d11, _⟩ := hm
  refine ⟨d2.trans c1, ?_, ?_, ?_, ?_, ?_, ?_, ?_, ?_⟩
  · rw [d3, c2, b3, a2]
  · rw [d4, c3, b4, b7, a3, a6]
    push_cast
    ring
  · rw [d5, c4, b5, a4]
  · rw [d6, c5]
    simp only [steadyTick]
    congr 1
    ring
  · rw [d7, c6, b7, a6]
  · rw [d8, c7, b8, a7]
  · rw [d11, c8, b11, a8]
  · rw [ht]
    simp only [steadyTick]
    congr 1
    ring

theorem scan7_succ (n : Nat) : scan7 (n + 1) = Update (scan7 n) (steadyTick (n + 1)) := by
  simp only [scan7, steadyTicks, runTicks, List.range_succ, List.map_append, List.foldl_append,
    List.map_cons, List.map_nil, List.foldl_cons, List.foldl_nil]

set_option maxRecDepth 1000000 in
theorem AfterReversal_scan7_167 : AfterReversal 0 (scan7 167) := by
  decide!

theorem AfterReversal_scan7 (k : Nat) : AfterReversal k (scan7 (167 + k)) := by
  induction k with
  | zero => exact AfterReversal_scan7_167
  | succ k ih =>
    have h := AfterReversal_Update k (scan7 (167 + k)) ih
    have e : 167 + (k + 1) = (167 + k) + 1 := by ring
    have e2 : 168 + k = (167 + k) + 1 := by ring
    rw [e, scan7_succ, ← e2]
    exact h

/-! ## Claims on the scan -/

/-- C6 (what the code does instead): with seven beams and calls of `Update` 200
clock units apart, call 167 arrives at the target of the last beam (step 168)
and reverses the direction; after any `k` further calls (as long as the
position fits an `int`) the scan still aims at step 168, moves away from it
(position `167 - k`), and the arrival of call 167 is still the last one
recorded: no target of a lower beam is ever aimed at or arrived at. -/
theorem scan_never_returns_after_reversal (k : Nat) (hk : k ≤ 2147483648) :
    arrivedAtTarget (scan7 166) (scan7 167) (200 * 167) 168 ∧
      (scan7 166).scanDirection_ = 1 ∧
      (scan7 (167 + k)).scanDirection_ = -1 ∧
      (scan7 (167 + k)).targetStepPosition_ = 168 ∧
      (scan7 (167 + k)).currentStepPosition_ = 167 - (k : Int) ∧
      -2147483648 ≤ (scan7 (167 + k)).currentStepPosition_ ∧
      (scan7 (167 + k)).currentBeamIndex_ = 6 ∧
      (scan7 (167 + k)).beamCheckStartTime_ = 200 * 167 := by
  obtain ⟨_, _, a3, a4, _, a6, a7, a8, _⟩ := AfterReversal_scan7 k
  refine ⟨by decide!, by decide!, a6, a4, a3, ?_, a7, a8⟩
  rw [a3]
  omega

/-- Witness of C6: 400 calls of `Update` after the reversal. -/
theorem scan_never_returns_after_reversal_witness :
    arrivedAtTarget (scan7 166) (scan7 167) (200 * 167) 168 ∧
      (scan7 166).scanDirection_ = 1 ∧
      (scan7 (167 + 400)).scanDirection_ = -1 ∧
      (scan7 (167 + 400)).targetStepPosition_ = 168 ∧
      (scan7 (167 + 400)).currentStepPosition_ = 167 - ((400 : Nat) : Int) ∧
      -2147483648 ≤ (scan7 (167 + 400)).currentStepPosition_ ∧
      (scan7 (167 + 400)).currentBeamIndex_ = 6 ∧
      (scan7 (167 + 400)).beamCheckStartTime_ = 200 * 167 :=
  scan_never_returns_after_reversal 400 (by decide)

set_option maxRecDepth 1000000 in
/-- C7: after `Init` with a configured beam count between 1 and 16,
`stepsPerBeam_` is 200 divided by the beam count; the target computed by
`CalculateNextBeamPosition` is `currentBeamIndex_ * stepsPerBeam_`; with seven
beams `stepsPerBeam_` is 28 and the scan started by `Init`, ticked 200 clock
units apart, takes the targets 0, 28, 56, 84, 112, 140, 168 in this order,
arrives within one step of each (calls 1, 27, 55, 83, 111, 139, 167), and the
direction is 1 before and -1 after the arrival at 168. -/
theorem stepsPerBeam_and_forward_targets (s : LaserBeamManager) (cfg : LaserHarpConfig)
    (clk : Nat → Nat) (t : LaserBeamManager)
    (h1 : 1 ≤ cfg.numBeams) (h16 : cfg.numBeams ≤ 16) :
    (Init s (some cfg) clk).stepsPerBeam_ = 200 / (cfg.numBeams : Int) ∧
      (CalculateNextBeamPosition t).targetStepPosition_ =
        ((CalculateNextBeamPosition t).currentBeamIndex_ : Int) *
          (CalculateNextBeamPosition t).stepsPerBeam_ ∧
      configured7.stepsPerBeam_ = 28 ∧
      ((List.range 168).map (fun k => (scan7 k).targetStepPosition_)).destutter (· ≠ ·) =
        [0, 28, 56, 84, 112, 140, 168] ∧
      arrivedAtTarget (scan7 0) (scan7 1) (200 * 1) 0 ∧
      arrivedAtTarget (scan7 26) (scan7 27) (200 * 27) 28 ∧
      arrivedAtTarget (scan7 54) (scan7 55) (200 * 55) 56 ∧
      arrivedAtTarget (scan7 82) (scan7 83) (200 * 83) 84 ∧
      arrivedAtTarget (scan7 110) (scan7 111) (200 * 111) 112 ∧
      arrivedAtTarget (scan7 138) (scan7 139) (200 * 139) 140 ∧
      arrivedAtTarget (scan7 166) (scan7 167) (200 * 167) 168 ∧
      (scan7 166).scanDirection_ = 1 ∧ (scan7 167).scanDirection_ = -1 := by
  refine ⟨?_, ?_, by decide!, by decide!, by decide!, by decide!, by decide!, by decide!,
    by decide!, by decide!, by decide!, by decide!, by decide!⟩
  · have hc : cfg.numBeams > 0 ∧ cfg.numBeams ≤ 16 := ⟨by omega, h16⟩
    simp only [Init, InitializeGPIO, InitializeLaser, InitializeADC, InitializeServo,
      LoadConfigurationParameters, StartScanning, Option.isSome_some, if_true, hc, and_self,
      STEPS_PER_REVOLUTION]
  · unfold CalculateNextBeamPosition
    simp only []

/-- Witness of C7: the configuration with seven beams. -/
theorem stepsPerBeam_and_forward_targets_witness :
    (Init freshManager (some cfg7) (fun _ => 0)).stepsPerBeam_ = 200 / (cfg7.numBeams : Int) ∧
      (CalculateNextBeamPosition configured7).targetStepPosition_ =
        ((CalculateNextBeamPosition configured7).currentBeamIndex_ : Int) *
          (CalculateNextBeamPosition configured7).stepsPerBeam_ ∧
      configured7.stepsPerBeam_ = 28 ∧
      ((List.range 168).map (fun k => (scan7 k).targetStepPosition_)).destutter (· ≠ ·) =
        [0, 28, 56, 84, 112, 140, 168] ∧
      arrivedAtTarget (scan7 0) (scan7 1) (200 * 1) 0 ∧
      arrivedAtTarget (scan7 26) (scan7 27) (200 * 27) 28 ∧
      arrivedAtTarget (scan7 54) (scan7 55) (200 * 55) 56 ∧
      arrivedAtTarget (scan7 82) (scan7 83) (200 * 83) 84 ∧
      arrivedAtTarget (scan7 110) (scan7 111) (200 * 111) 112 ∧
      arrivedAtTarget (scan7 138) (scan7 139) (200 * 139) 140 ∧
      arrivedAtTarget (scan7 166) (scan7 167) (200 * 167) 168 ∧
      (scan7 166).scanDirection_ = 1 ∧ (scan7 167).scanDirection_ = -1 :=
  stepsPerBeam_and_forward_targets freshManager cfg7 (fun _ => 0) configured7
    (by decide) (by decide)

set_option maxRecDepth 1000000 in
/-- C8 (what the code does instead): in the seven-beam scan, call 1 arrives at
the target of beam 0 and leaves `currentBeamIndex_` at 1; on call 2, still at
position, the filtered value of beam 1 changes and that of beam 0 does not;
call 27 arrives at the target of beam 1 (step 28) and it is the state of beam 2
that changes, not that of beam 1. -/
theorem samples_attributed_to_next_beam :
    arrivedAtTarget (scan7 0) (scan7 1) (200 * 1) 0 ∧
      (scan7 1).currentBeamIndex_ = 1 ∧
      (scan7 1).atBeamPosition_ = true ∧
      (scan7 2).filteredValues_ 0 = (scan7 1).filteredValues_ 0 ∧
      (scan7 2).filteredValues_ 1 ≠ (scan7 1).filteredValues_ 1 ∧
      arrivedAtTarget (scan7 26) (scan7 27) (200 * 27) 28 ∧
      (scan7 27).currentBeamIndex_ = 2 ∧
      (scan7 27).beamStates_ 1 = (scan7 26).beamStates_ 1 ∧
      (scan7 27).beamStates_ 2 ≠ (scan7 26).beamStates_ 2 := by
  decide!

/-! ## Claims on the classifier -/

/-- C9: when the time since the last confirmed transition of the beam under
examination does not exceed the debounce window (5000 clock units),
`ProcessBeamStates` returns the object unchanged, whatever the candidate
state: confirmed state, time of the last transition and event queue are as
before, and no event is produced. -/
theorem debounce_window_ignores_candidate (s : LaserBeamManager) (now nowEvent : Nat)
    (hwin : sub32 (now % U32) (s.lastStateChange_ s.currentBeamIndex_) ≤ 5000) :
    ProcessBeamStates s now nowEvent = s ∧
      (ProcessBeamStates s now nowEvent).beamStates_ = s.beamStates_ ∧
      (ProcessBeamStates s now nowEvent).lastStateChange_ = s.lastStateChange_ ∧
      pendingEvents (ProcessBeamStates s now nowEvent) = pendingEvents s := by
  have h : ProcessBeamStates s now nowEvent = s := by
    have hn : ¬ sub32 (now % U32) (s.lastStateChange_ s.currentBeamIndex_) >
        DEBOUNCE_TIME_MS * 1000 := by
      simp only [DEBOUNCE_TIME_MS]
      omega
    unfold ProcessBeamStates
    simp only [hn, if_false, ite_self]
  rw [h]
  exact ⟨rfl, rfl, rfl, rfl⟩

set_option maxRecDepth 1000000 in
/-- Witness of C9: inside call 2 of the seven-beam scan the candidate state of
beam 1 differs from the confirmed one, 400 clock units after the last
transition. -/
theorem debounce_window_ignores_candidate_witness :
    (decide ((scan7 1).filteredValues_ (scan7 1).currentBeamIndex_ ≤
        (((scan7 1).thresholds_ (scan7 1).currentBeamIndex_ : Nat) : ℚ)) ≠
      (scan7 1).beamStates_ (scan7 1).currentBeamIndex_) ∧
    (ProcessBeamStates (scan7 1) 400 400 = scan7 1 ∧
      (ProcessBeamStates (scan7 1) 400 400).beamStates_ = (scan7 1).beamStates_ ∧
      (ProcessBeamStates (scan7 1) 400 400).lastStateChange_ = (scan7 1).lastStateChange_ ∧
      pendingEvents (ProcessBeamStates (scan7 1) 400 400) = pendingEvents (scan7 1)) :=
  ⟨by decide!, debounce_window_ignores_candidate (scan7 1) 400 400 (by decide!)⟩

theorem beamStates_QueueEvent (s : LaserBeamManager) (type : BeamEventType)
    (beam velocity : Nat) (analogValue : ℚ) (now : Nat) :
    (QueueEvent s type beam velocity analogValue now).beamStates_ = s.beamStates_ := by
  unfold QueueEvent
  split_ifs <;> rfl

theorem lastStateChange_QueueEvent (s : LaserBeamManager) (type : BeamEventType)
    (beam velocity : Nat) (analogValue : ℚ) (now : Nat) :
    (QueueEvent s type beam velocity analogValue now).lastStateChange_ = s.lastStateChange_ := by
  unfold QueueEvent
  split_ifs <;> rfl

/-- C10 (what the code does instead): when `ProcessBeamStates` confirms a
transition of beam `i` (at position, emitter on, candidate different from the
stored state, debounce window elapsed), `IsBeamBroken(i)` afterwards returns
true exactly when the filtered value was above the threshold, and false when it
was at or below it. -/
theorem isBeamBroken_inverted_after_transition (s : LaserBeamManager) (now nowEvent : Nat)
    (hat : s.atBeamPosition_ = true) (hl : s.laserState_ = true)
    (hi : s.currentBeamIndex_ < 16)
    (hdiff : decide (s.filteredValues_ s.currentBeamIndex_ ≤
        ((s.thresholds_ s.currentBeamIndex_ : Nat) : ℚ)) ≠ s.beamStates_ s.currentBeamIndex_)
    (hel : sub32 (now % U32) (s.lastStateChange_ s.currentBeamIndex_) > 5000) :
    (ProcessBeamStates s now nowEvent).lastStateChange_ s.currentBeamIndex_ = now % U32 ∧
    (IsBeamBroken (ProcessBeamStates s now nowEvent) s.currentBeamIndex_ = true ↔
      ((s.thresholds_ s.currentBeamIndex_ : Nat) : ℚ) <
        s.filteredValues_ s.currentBeamIndex_) := by
  have hgt : sub32 (now % U32) (s.lastStateChange_ s.currentBeamIndex_) >
      DEBOUNCE_TIME_MS * 1000 := by
    simp only [DEBOUNCE_TIME_MS]
    omega
  unfold ProcessBeamStates IsBeamBroken
  simp only [hat, hl, Bool.not_true, Bool.or_self, Bool.false_eq_true, if_false, hgt, if_true,
    hi]
  by_cases hle : s.filteredValues_ s.currentBeamIndex_ ≤
      ((s.thresholds_ s.currentBeamIndex_ : Nat) : ℚ)
  · have hp : s.beamStates_ s.currentBeamIndex_ = false := by
      simp only [hle, decide_True] at hdiff
      cases hb : s.beamStates_ s.currentBeamIndex_ with
      | false => rfl
      | true => exact absurd hb.symm hdiff
    simp only [hle, decide_True, hp, bne_iff_ne, ne_eq, Bool.true_eq_false, not_false_eq_true,
      if_true, Bool.not_false, Bool.and_self, beamStates_QueueEvent, lastStateChange_QueueEvent,
      Function.update_same, Bool.not_true, Bool.false_eq_true, false_iff, not_lt, true_and]
  · have hp : s.beamStates_ s.currentBeamIndex_ = true := by
      simp only [hle, decide_False] at hdiff
      cases hb : s.beamStates_ s.currentBeamIndex_ with
      | false => exact absurd hb.symm hdiff
      | true => rfl
    simp only [hle, decide_False, hp, bne_iff_ne, ne_eq, Bool.false_eq_true, not_false_eq_true,
      if_true, Bool.not_true, Bool.and_false, Bool.not_false, Bool.and_self, if_false,
      beamStates_QueueEvent, lastStateChange_QueueEvent,
      Function.update_same, true_iff, true_and]
    exact not_le.mp hle

set_option maxRecDepth 1000000 in
/-- Witness of C10: call 27 of the seven-beam scan confirms a transition of
beam 2 while its filtered value (1000) is above its threshold (700), and
`IsBeamBroken(2)` is true afterwards. -/
theorem isBeamBroken_inverted_after_transition_witness :
    (beforeProcess27.currentBeamIndex_ = 2 ∧ beforeProcess27.filteredValues_ 2 = 1000 ∧
      beforeProcess27.thresholds_ 2 = 700 ∧ IsBeamBroken (scan7 26) 2 = false ∧
      IsBeamBroken (scan7 27) 2 = true) ∧
    ((ProcessBeamStates beforeProcess27 5400 5400).lastStateChange_
        beforeProcess27.currentBeamIndex_ = 5400 % U32 ∧
      (IsBeamBroken (ProcessBeamStates beforeProcess27 5400 5400)
          beforeProcess27.currentBeamIndex_ = true ↔
        ((beforeProcess27.thresholds_ beforeProcess27.currentBeamIndex_ : Nat) : ℚ) <
          beforeProcess27.filteredValues_ beforeProcess27.currentBeamIndex_)) :=
  ⟨by decide!,
    isBeamBroken_inverted_after_transition beforeProcess27 5400 5400 (by decide!) (by decide!)
      (by decide!) (by decide!) (by decide!)⟩

/-! ## Single precision -/

theorem bitLength_spec (fuel n : Nat) (h : n ≤ fuel) (hn : 0 < n) :
    2 ^ bitLength fuel n ≤ 2 * n ∧ n < 2 ^ bitLength fuel n := by
  induction fuel generalizing n with
  | zero => omega
  | succ fuel ih =>
    have hne : n ≠ 0 := by omega
    simp only [bitLength, hne, if_false]
    by_cases h2 : n / 2 = 0
    · have h1 : n = 1 := by omega
      subst h1
      have hb : bitLength fuel (1 / 2) = 0 := by
        cases fuel with
        | zero => rfl
        | succ f => simp [bitLength]
      rw [hb]
      norm_num
    · obtain ⟨a, b⟩ := ih (n / 2) (by omega) (by omega)
      rw [pow_succ]
      constructor <;> omega

theorem log2Floor_spec (x : ℚ) (hx : x ≠ 0) :
    (2 : ℚ) ^ log2Floor x ≤ |x| ∧ |x| < (2 : ℚ) ^ (log2Floor x + 1) := by
  have hnum : x.num ≠ 0 := Rat.num_ne_zero.mpr hx
  have hP : 0 < x.num.natAbs := Int.natAbs_pos.mpr hnum
  have hQ : 0 < x.den := x.den_pos
  obtain ⟨p1, p2⟩ := bitLength_spec x.num.natAbs x.num.natAbs (le_refl _) hP
  obtain ⟨q1, q2⟩ := bitLength_spec x.den x.den (le_refl _) hQ
  have hQq : (0 : ℚ) < (x.den : ℚ) := by exact_mod_cast hQ
  have habs : |x| = (x.num.natAbs : ℚ) / (x.den : ℚ) := by
    conv_lhs => rw [← Rat.num_div_den x]
    rw [abs_div, abs_of_pos hQq, Nat.cast_natAbs, Int.cast_abs]
  have p1q : (2 : ℚ) ^ bitLength x.num.natAbs x.num.natAbs ≤ 2 * (x.num.natAbs : ℚ) := by
    exact_mod_cast p1
  have p2q : (x.num.natAbs : ℚ) < (2 : ℚ) ^ bitLength x.num.natAbs x.num.natAbs := by
    exact_mod_cast p2
  have q1q : (2 : ℚ) ^ bitLength x.den x.den ≤ 2 * (x.den : ℚ) := by
    exact_mod_cast q1
  have q2q : (x.den : ℚ) < (2 : ℚ) ^ bitLength x.den x.den := by
    exact_mod_cast q2
  have hpowQ : (0 : ℚ) < (2 : ℚ) ^ bitLength x.den x.den := by positivity
  have he : ∀ k : Int, (2 : ℚ) ^
      ((bitLength x.num.natAbs x.num.natAbs : Int) - (bitLength x.den x.den : Int) + k) =
      (2 : ℚ) ^ bitLength x.num.natAbs x.num.natAbs / (2 : ℚ) ^ bitLength x.den x.den *
        (2 : ℚ) ^ k := by
    intro k
    rw [zpow_add₀ (by norm_num : (2 : ℚ) ≠ 0), zpow_sub₀ (by norm_num : (2 : ℚ) ≠ 0),
      zpow_natCast, zpow_natCast]
  have hlow : (2 : ℚ) ^
      ((bitLength x.num.natAbs x.num.natAbs : Int) - (bitLength x.den x.den : Int) + (-1)) ≤
      |x| := by
    rw [he, habs, div_mul_eq_mul_div, div_le_div_iff₀ hpowQ hQq]
    have h2 : (2 : ℚ) ^ (-1 : Int) = 1 / 2 := by norm_num
    rw [h2]
    nlinarith
  have hhigh : |x| < (2 : ℚ) ^
      ((bitLength x.num.natAbs x.num.natAbs : Int) - (bitLength x.den x.den : Int) + 1) := by
    rw [he, habs, div_mul_eq_mul_div, div_lt_div_iff₀ hQq hpowQ]
    have h2 : (2 : ℚ) ^ (1 : Int) = 2 := by norm_num
    rw [h2]
    nlinarith
  unfold log2Floor
  simp only []
  split_ifs with h
  · exact ⟨h, hhigh⟩
  · refine ⟨?_, ?_⟩
    · rw [sub_eq_add_neg]
      exact hlow
    · rw [sub_add_cancel]
      exact lt_of_not_le h

theorem log2Floor_eq_log (x : ℚ) (hx : x ≠ 0) : log2Floor x = Int.log 2 |x| := by
  obtain ⟨h1, h2⟩ := log2Floor_spec x hx
  have hpos : 0 < |x| := abs_pos.mpr hx
  apply le_antisymm
  · rw [← Int.zpow_le_iff_le_log (by norm_num) hpos]
    exact_mod_cast h1
  · have : Int.log 2 |x| < log2Floor x + 1 := by
      rw [← Int.lt_zpow_iff_log_lt (by norm_num) hpos]
      exact_mod_cast h2
    omega

theorem roundHalfEven_error (y : ℚ) : |((roundHalfEven y : Int) : ℚ) - y| ≤ 1 / 2 := by
  have h0 := Int.fract_nonneg y
  have h1 := Int.fract_lt_one y
  have hy : y = (⌊y⌋ : ℚ) + Int.fract y := (Int.floor_add_fract y).symm
  unfold roundHalfEven
  rw [abs_le]
  split_ifs <;> push_cast <;> constructor <;> linarith

theorem roundHalfEven_nonneg (y : ℚ) (h : 0 ≤ y) : 0 ≤ roundHalfEven y := by
  have hf : 0 ≤ ⌊y⌋ := Int.floor_nonneg.mpr h
  unfold roundHalfEven
  split_ifs <;> omega

theorem f32Ulp_pos (x : ℚ) : 0 < f32Ulp x := by
  unfold f32Ulp
  positivity

theorem f32_nonneg (x : ℚ) (h : 0 ≤ x) : 0 ≤ f32 x := by
  unfold f32
  have hu := f32Ulp_pos x
  have hr := roundHalfEven_nonneg (x / f32Ulp x) (div_nonneg h hu.le)
  have : (0 : ℚ) ≤ ((roundHalfEven (x / f32Ulp x) : Int) : ℚ) := by exact_mod_cast hr
  positivity

theorem f32_error_ulp (x : ℚ) : |f32 x - x| ≤ f32Ulp x / 2 := by
  have hu := f32Ulp_pos x
  have hr := roundHalfEven_error (x / f32Ulp x)
  have e : f32 x - x = (((roundHalfEven (x / f32Ulp x) : Int) : ℚ) - x / f32Ulp x) * f32Ulp x := by
    unfold f32
    field_simp
  rw [e, abs_mul, abs_of_pos hu]
  calc |((roundHalfEven (x / f32Ulp x) : Int) : ℚ) - x / f32Ulp x| * f32Ulp x
      ≤ 1 / 2 * f32Ulp x := mul_le_mul_of_nonneg_right hr hu.le
    _ = f32Ulp x / 2 := by ring

theorem f32_zero : f32 0 = 0 := by
  simp [f32, roundHalfEven]

/-- Absolute error of one rounding of a value bounded by `B`. -/
theorem f32_error (x B : ℚ) (hx : |x| ≤ B) (hB : 1 ≤ B) : |f32 x - x| ≤ B / 2 ^ 24 := by
  by_cases h0 : x = 0
  · rw [h0, f32_zero]
    simp only [sub_zero, abs_zero]
    positivity
  have hpos : 0 < |x| := abs_pos.mpr h0
  have hlog : (2 : ℚ) ^ log2Floor x ≤ |x| := (log2Floor_spec x h0).1
  have hexp : (2 : ℚ) ^ f32Exponent x ≤ B := by
    unfold f32Exponent
    rcases le_total (log2Floor x) (-126) with h | h
    · rw [max_eq_right h]
      have : (2 : ℚ) ^ (-126 : Int) ≤ 1 := by
        apply zpow_le_one_of_nonpos₀ <;> norm_num
      linarith
    · rw [max_eq_left h]
      linarith
  have hulp : f32Ulp x / 2 = (2 : ℚ) ^ f32Exponent x / 2 ^ 24 := by
    unfold f32Ulp
    rw [zpow_sub₀ (by norm_num : (2 : ℚ) ≠ 0)]
    norm_num
    ring
  calc |f32 x - x| ≤ f32Ulp x / 2 := f32_error_ulp x
    _ = (2 : ℚ) ^ f32Exponent x / 2 ^ 24 := hulp
    _ ≤ B / 2 ^ 24 := by
      apply div_le_div_of_nonneg_right hexp
      positivity


theorem roundHalfEven_intCast (n : Int) : roundHalfEven (n : ℚ) = n := by
  unfold roundHalfEven
  simp

theorem roundHalfEven_mono (y z : ℚ) (h : y ≤ z) : roundHalfEven y ≤ roundHalfEven z := by
  have hy0 := Int.fract_nonneg y
  have hy1 := Int.fract_lt_one y
  have hz0 := Int.fract_nonneg z
  have hz1 := Int.fract_lt_one z
  have hy : y = (⌊y⌋ : ℚ) + Int.fract y := (Int.floor_add_fract y).symm
  have hz : z = (⌊z⌋ : ℚ) + Int.fract z := (Int.floor_add_fract z).symm
  have hfl : ⌊y⌋ ≤ ⌊z⌋ := Int.floor_le_floor h
  rcases hfl.lt_or_eq with hlt | heq
  · have h1 : roundHalfEven y ≤ ⌊y⌋ + 1 := by
      unfold roundHalfEven
      split_ifs <;> omega
    have h2 : ⌊z⌋ ≤ roundHalfEven z := by
      unfold roundHalfEven
      split_ifs <;> omega
    omega
  · have hfr : Int.fract y ≤ Int.fract z := by
      have : (⌊y⌋ : ℚ) = (⌊z⌋ : ℚ) := by exact_mod_cast heq
      linarith
    unfold roundHalfEven
    rw [heq]
    split_ifs <;> first | omega | (exfalso; linarith)

theorem f32Ulp_eq (x : ℚ) : f32Ulp x = (2 : ℚ) ^ f32Exponent x / 2 ^ 23 := by
  unfold f32Ulp
  rw [zpow_sub₀ (by norm_num : (2 : ℚ) ≠ 0)]
  norm_num

theorem f32_of_intCast_mul (x : ℚ) (m : Int) (h : x = (m : ℚ) * f32Ulp x) : f32 x = x := by
  have hu := f32Ulp_pos x
  unfold f32
  have e : x / f32Ulp x = (m : ℚ) := by
    rw [div_eq_iff hu.ne.symm]
    exact h
  rw [e, roundHalfEven_intCast]
  exact h.symm


theorem f32Exponent_mono (x y : ℚ) (hx : 0 < x) (h : x ≤ y) :
    f32Exponent x ≤ f32Exponent y := by
  have hy : 0 < y := lt_of_lt_of_le hx h
  unfold f32Exponent
  rw [log2Floor_eq_log x hx.ne.symm, log2Floor_eq_log y hy.ne.symm, abs_of_pos hx,
    abs_of_pos hy]
  exact max_le_max (Int.log_mono_right hx h) (le_refl _)

theorem f32_eq (x : ℚ) :
    f32 x = (roundHalfEven (x * 2 ^ 23 / (2 : ℚ) ^ f32Exponent x) : ℚ) *
      ((2 : ℚ) ^ f32Exponent x / 2 ^ 23) := by
  have hp : (0 : ℚ) < (2 : ℚ) ^ f32Exponent x := by positivity
  unfold f32
  rw [f32Ulp_eq]
  congr 3
  field_simp

/-- Rounding does not pass the upper end of the binade. -/
theorem f32_le_pow (x : ℚ) (hx : 0 < x) : f32 x ≤ (2 : ℚ) ^ (f32Exponent x + 1) := by
  have hp : (0 : ℚ) < (2 : ℚ) ^ f32Exponent x := by positivity
  have h1 : x < (2 : ℚ) ^ (log2Floor x + 1) := by
    have := (log2Floor_spec x hx.ne.symm).2
    rwa [abs_of_pos hx] at this
  have h2 : (2 : ℚ) ^ (log2Floor x + 1) ≤ (2 : ℚ) ^ (f32Exponent x + 1) := by
    apply zpow_le_zpow_right₀ (by norm_num)
    unfold f32Exponent
    have := le_max_left (log2Floor x) (-126)
    omega
  have h3 : (2 : ℚ) ^ (f32Exponent x + 1) = (2 : ℚ) ^ f32Exponent x * 2 := by
    rw [zpow_add₀ (by norm_num : (2 : ℚ) ≠ 0)]
    norm_num
  have hq : x * 2 ^ 23 / (2 : ℚ) ^ f32Exponent x ≤ ((2 ^ 24 : Int) : ℚ) := by
    rw [div_le_iff₀ hp]
    push_cast
    nlinarith
  have hr := roundHalfEven_mono _ _ hq
  rw [roundHalfEven_intCast] at hr
  have hr2 : ((roundHalfEven (x * 2 ^ 23 / (2 : ℚ) ^ f32Exponent x) : Int) : ℚ) ≤ 2 ^ 24 := by
    exact_mod_cast hr
  rw [f32_eq, h3]
  have hu : (0 : ℚ) ≤ (2 : ℚ) ^ f32Exponent x / 2 ^ 23 := by positivity
  calc ((roundHalfEven (x * 2 ^ 23 / (2 : ℚ) ^ f32Exponent x) : Int) : ℚ) *
        ((2 : ℚ) ^ f32Exponent x / 2 ^ 23)
      ≤ 2 ^ 24 * ((2 : ℚ) ^ f32Exponent x / 2 ^ 23) := mul_le_mul_of_nonneg_right hr2 hu
    _ = (2 : ℚ) ^ f32Exponent x * 2 := by ring

/-- Rounding does not pass the lower end of the binade. -/
theorem pow_le_f32 (x : ℚ) (hx : 0 < x) (hn : -126 ≤ log2Floor x) :
    (2 : ℚ) ^ f32Exponent x ≤ f32 x := by
  have hp : (0 : ℚ) < (2 : ℚ) ^ f32Exponent x := by positivity
  have he : f32Exponent x = log2Floor x := max_eq_left hn
  have h1 : (2 : ℚ) ^ f32Exponent x ≤ x := by
    have := (log2Floor_spec x hx.ne.symm).1
    rwa [abs_of_pos hx, ← he] at this
  have hq : ((2 ^ 23 : Int) : ℚ) ≤ x * 2 ^ 23 / (2 : ℚ) ^ f32Exponent x := by
    rw [le_div_iff₀ hp]
    push_cast
    nlinarith
  have hr := roundHalfEven_mono _ _ hq
  rw [roundHalfEven_intCast] at hr
  have hr2 : (2 : ℚ) ^ 23 ≤ ((roundHalfEven (x * 2 ^ 23 / (2 : ℚ) ^ f32Exponent x) : Int) : ℚ) := by
    exact_mod_cast hr
  rw [f32_eq]
  have hu : (0 : ℚ) ≤ (2 : ℚ) ^ f32Exponent x / 2 ^ 23 := by positivity
  calc (2 : ℚ) ^ f32Exponent x = 2 ^ 23 * ((2 : ℚ) ^ f32Exponent x / 2 ^ 23) := by ring
    _ ≤ _ := mul_le_mul_of_nonneg_right hr2 hu

/-- Rounding to single precision is monotone (on the values that are not
negative). -/
theorem f32_mono (x y : ℚ) (hx : 0 ≤ x) (h : x ≤ y) : f32 x ≤ f32 y := by
  rcases hx.lt_or_eq with hpos | h0
  · have hy : 0 < y := lt_of_lt_of_le hpos h
    have hexp := f32Exponent_mono x y hpos h
    rcases hexp.lt_or_eq with hlt | heq
    · have a := f32_le_pow x hpos
      have hny : -126 ≤ log2Floor y := by
        by_contra hc
        have : f32Exponent y = -126 := by
          unfold f32Exponent
          exact max_eq_right (by omega)
        have : -126 ≤ f32Exponent x := le_max_right _ _
        omega
      have b := pow_le_f32 y hy hny
      have c : (2 : ℚ) ^ (f32Exponent x + 1) ≤ (2 : ℚ) ^ f32Exponent y :=
        zpow_le_zpow_right₀ (by norm_num) (by omega)
      linarith
    · rw [f32_eq x, f32_eq y, heq]
      have hp : (0 : ℚ) < (2 : ℚ) ^ f32Exponent y := by positivity
      have hu : (0 : ℚ) ≤ (2 : ℚ) ^ f32Exponent y / 2 ^ 23 := by positivity
      have hq : x * 2 ^ 23 / (2 : ℚ) ^ f32Exponent y ≤ y * 2 ^ 23 / (2 : ℚ) ^ f32Exponent y := by
        apply div_le_div_of_nonneg_right _ hp.le
        nlinarith
      have hr := roundHalfEven_mono _ _ hq
      have hr2 : ((roundHalfEven (x * 2 ^ 23 / (2 : ℚ) ^ f32Exponent y) : Int) : ℚ) ≤
          ((roundHalfEven (y * 2 ^ 23 / (2 : ℚ) ^ f32Exponent y) : Int) : ℚ) := by
        exact_mod_cast hr
      exact mul_le_mul_of_nonneg_right hr2 hu
  · rw [← h0, f32_zero]
    exact f32_nonneg y (by linarith)


theorem log2Floor_of_bounds (y : ℚ) (e : Int) (h1 : (2 : ℚ) ^ e ≤ y)
    (h2 : y < (2 : ℚ) ^ (e + 1)) : log2Floor y = e := by
  have hy : 0 < y := lt_of_lt_of_le (by positivity) h1
  rw [log2Floor_eq_log y hy.ne.symm, abs_of_pos hy]
  apply le_antisymm
  · have : Int.log 2 y < e + 1 := by
      rw [← Int.lt_zpow_iff_log_lt (by norm_num) hy]
      exact_mod_cast h2
    omega
  · rw [← Int.zpow_le_iff_le_log (by norm_num) hy]
    exact_mod_cast h1

/-- A value already rounded to single precision is left alone by another
rounding (stated for values from 1 on). -/
theorem f32_f32 (x : ℚ) (hx : 1 ≤ x) : f32 (f32 x) = f32 x := by
  have hpos : 0 < x := by linarith
  have hl : 0 ≤ log2Floor x := by
    have h2 := (log2Floor_spec x hpos.ne.symm).2
    rw [abs_of_pos hpos] at h2
    by_contra hc
    have : (2 : ℚ) ^ (log2Floor x + 1) ≤ 1 := zpow_le_one_of_nonpos₀ (by norm_num) (by omega)
    linarith
  have he : f32Exponent x = log2Floor x := max_eq_left (by omega)
  have hlow := pow_le_f32 x hpos (by omega)
  have hhigh := f32_le_pow x hpos
  rcases hhigh.lt_or_eq with hlt | heq
  · have hly : log2Floor (f32 x) = f32Exponent x := log2Floor_of_bounds _ _ hlow hlt
    have hey : f32Exponent (f32 x) = f32Exponent x := by
      have : f32Exponent (f32 x) = max (log2Floor (f32 x)) (-126) := rfl
      rw [this, hly]
      exact max_eq_left (by omega)
    apply f32_of_intCast_mul (f32 x)
      (roundHalfEven (x * 2 ^ 23 / (2 : ℚ) ^ f32Exponent x))
    rw [f32Ulp_eq, hey]
    exact f32_eq x
  · have hly : log2Floor (f32 x) = f32Exponent x + 1 := by
      apply log2Floor_of_bounds
      · exact heq.symm.le
      · rw [heq]
        exact zpow_lt_zpow_right₀ (by norm_num) (by omega)
    have hey : f32Exponent (f32 x) = f32Exponent x + 1 := by
      have : f32Exponent (f32 x) = max (log2Floor (f32 x)) (-126) := rfl
      rw [this, hly]
      exact max_eq_left (by omega)
    apply f32_of_intCast_mul (f32 x) (2 ^ 23)
    rw [f32Ulp_eq, hey, heq]
    push_cast
    ring

theorem roundHalfEven_nonpos (y : ℚ) (h : y ≤ 0) : roundHalfEven y ≤ 0 := by
  have hr := roundHalfEven_mono y 0 h
  have h0 : roundHalfEven (0 : ℚ) = 0 := by
    have := roundHalfEven_intCast 0
    simpa using this
  omega

theorem f32_nonpos (x : ℚ) (h : x ≤ 0) : f32 x ≤ 0 := by
  unfold f32
  have hu := f32Ulp_pos x
  have hr := roundHalfEven_nonpos (x / f32Ulp x) (div_nonpos_of_nonpos_of_nonneg h hu.le)
  have : ((roundHalfEven (x / f32Ulp x) : Int) : ℚ) ≤ 0 := by exact_mod_cast hr
  exact mul_nonpos_of_nonpos_of_nonneg this hu.le

theorem f32_one : f32 1 = 1 := by
  decide!

theorem f32_126 : f32 126 = 126 := by
  decide!

theorem f32_error_bounds (x B : ℚ) (hx : |x| ≤ B) (hB : 1 ≤ B) :
    f32 x - x ≤ B / 16777216 ∧ -(B / 16777216) ≤ f32 x - x := by
  have h := abs_le.mp (f32_error x B hx hB)
  have e : (2 : ℚ) ^ 24 = 16777216 := by norm_num
  rw [e] at h
  exact ⟨h.2, h.1⟩

/-! ## Claims on the intensity -/

theorem breakDepth_nonneg (threshold analogValue : ℚ) : 0 ≤ breakDepth threshold analogValue :=
  le_max_left _ _

theorem breakDepth_le_one (threshold analogValue : ℚ) : breakDepth threshold analogValue ≤ 1 :=
  max_le (by norm_num) (min_le_left _ _)

theorem truncU8_of_range (x : ℚ) (h0 : 0 ≤ x) (h1 : x ≤ 126) :
    ((truncU8 x : Nat) : Int) = ⌊x⌋ ∧ truncU8 x ≤ 126 := by
  have f0 : 0 ≤ ⌊x⌋ := Int.floor_nonneg.mpr h0
  have f1 : ⌊x⌋ ≤ 126 := by
    have : ⌊x⌋ ≤ ⌊(126 : ℚ)⌋ := Int.floor_le_floor h1
    simpa using this
  unfold truncU8
  omega

theorem floatDepth_nonneg (threshold : Nat) (analogValue : ℚ) :
    0 ≤ floatDepth threshold analogValue :=
  le_max_left _ _

theorem floatDepth_le_one (threshold : Nat) (analogValue : ℚ) :
    floatDepth threshold analogValue ≤ 1 :=
  max_le (by norm_num) (min_le_left _ _)

/-- The square of a depth between 0 and 1, and its product with 126, stay in
range after rounding. -/
theorem f32_square_range (d : ℚ) (h0 : 0 ≤ d) (h1 : d ≤ 1) :
    0 ≤ f32 (d * d) ∧ f32 (d * d) ≤ 1 ∧ 0 ≤ f32 (f32 (d * d) * 126) ∧
      f32 (f32 (d * d) * 126) ≤ 126 := by
  have hs0 : 0 ≤ d * d := by positivity
  have hs1 : d * d ≤ 1 := by nlinarith
  have v0 := f32_nonneg _ hs0
  have v1 : f32 (d * d) ≤ 1 := by
    have := f32_mono _ _ hs0 hs1
    rwa [f32_one] at this
  have p0 : 0 ≤ f32 (d * d) * 126 := by positivity
  have p1 : f32 (d * d) * 126 ≤ 126 := by linarith
  have w1 : f32 (f32 (d * d) * 126) ≤ 126 := by
    have := f32_mono _ _ p0 p1
    rwa [f32_126] at this
  exact ⟨v0, v1, f32_nonneg _ p0, w1⟩

theorem CalculateVelocity_eq (s : LaserBeamManager) (analogValue : ℚ) (beamIndex : Nat) :
    ((CalculateVelocity s analogValue beamIndex : Nat) : Int) =
        ⌊f32 (f32 (floatDepth (s.thresholds_ beamIndex) analogValue *
          floatDepth (s.thresholds_ beamIndex) analogValue) * 126)⌋ + 1 ∧
      1 ≤ CalculateVelocity s analogValue beamIndex ∧
      CalculateVelocity s analogValue beamIndex ≤ 127 := by
  have d0 := floatDepth_nonneg (s.thresholds_ beamIndex) analogValue
  have d1 := floatDepth_le_one (s.thresholds_ beamIndex) analogValue
  obtain ⟨_, _, w0, w1⟩ := f32_square_range _ d0 d1
  obtain ⟨e, b⟩ := truncU8_of_range _ w0 w1
  have hcv : CalculateVelocity s analogValue beamIndex =
      (truncU8 (f32 (f32 (floatDepth (s.thresholds_ beamIndex) analogValue *
        floatDepth (s.thresholds_ beamIndex) analogValue) * 126)) + 1) % 256 := rfl
  rw [hcv]
  omega

/-- The threshold converted to `float`: at least 1, and within the rounding
error of the threshold. -/
theorem f32_threshold (n : Nat) (h : 0 < n) :
    1 ≤ f32 (n : ℚ) ∧ |f32 (n : ℚ) - n| ≤ n / 2 ^ 24 ∧ f32 (f32 (n : ℚ)) = f32 (n : ℚ) := by
  have hn : (1 : ℚ) ≤ (n : ℚ) := by exact_mod_cast h
  refine ⟨?_, ?_, f32_f32 _ hn⟩
  · have := f32_mono 1 n (by norm_num) hn
    rwa [f32_one] at this
  · exact f32_error _ _ (by rw [abs_of_nonneg (by linarith)]) hn

/-- A filtered value of at most 0 gives the full depth. -/
theorem floatDepth_low (n : Nat) (low : ℚ) (h : 0 < n) (hlow : low ≤ 0) :
    floatDepth n low = 1 := by
  obtain ⟨t1, _, tid⟩ := f32_threshold n h
  have ht0 : 0 < f32 (n : ℚ) := by linarith
  have h1 : f32 (n : ℚ) ≤ f32 (f32 (n : ℚ) - low) := by
    have := f32_mono (f32 (n : ℚ)) (f32 (n : ℚ) - low) ht0.le (by linarith)
    rwa [tid] at this
  have h2 : 1 ≤ f32 (f32 (n : ℚ) - low) / f32 (n : ℚ) := by
    rw [le_div_iff₀ ht0]
    linarith
  have h3 : 1 ≤ f32 (f32 (f32 (n : ℚ) - low) / f32 (n : ℚ)) := by
    have := f32_mono 1 _ (by norm_num) h2
    rwa [f32_one] at this
  unfold floatDepth
  rw [min_eq_left h3]
  norm_num

/-- A deeper break gives a depth at least as large. -/
theorem floatDepth_antitone (n : Nat) (a b : ℚ) (h : 0 < n) (hab : a ≤ b) :
    floatDepth n b ≤ floatDepth n a := by
  obtain ⟨t1, _, _⟩ := f32_threshold n h
  have ht0 : 0 < f32 (n : ℚ) := by linarith
  rcases lt_or_le (f32 (n : ℚ) - b) 0 with hneg | hpos
  · have h1 := f32_nonpos _ hneg.le
    have h2 : f32 (f32 (n : ℚ) - b) / f32 (n : ℚ) ≤ 0 :=
      div_nonpos_of_nonpos_of_nonneg h1 ht0.le
    have h3 := f32_nonpos _ h2
    have hb : floatDepth n b = 0 := by
      unfold floatDepth
      apply max_eq_left
      exact le_trans (min_le_right _ _) h3
    rw [hb]
    exact floatDepth_nonneg n a
  · have h1 := f32_mono _ _ hpos (by linarith : f32 (n : ℚ) - b ≤ f32 (n : ℚ) - a)
    have h0 := f32_nonneg _ hpos
    have h2 : f32 (f32 (n : ℚ) - b) / f32 (n : ℚ) ≤ f32 (f32 (n : ℚ) - a) / f32 (n : ℚ) :=
      div_le_div_of_nonneg_right h1 ht0.le
    have h3 := f32_mono _ _ (div_nonneg h0 ht0.le) h2
    unfold floatDepth
    exact max_le_max (le_refl _) (min_le_min (le_refl _) h3)

/-- A filtered value equal to the threshold gives a product below 1. -/
theorem floatDepth_at_threshold (n : Nat) (h : 0 < n) :
    ⌊f32 (f32 (floatDepth n (n : ℚ) * floatDepth n (n : ℚ)) * 126)⌋ = 0 := by
  obtain ⟨t1, te, _⟩ := f32_threshold n h
  have hn : (1 : ℚ) ≤ (n : ℚ) := by exact_mod_cast h
  have te2 := abs_le.mp te
  have hd : |f32 (n : ℚ) - n| ≤ (n : ℚ) := by
    rw [abs_le]
    constructor <;> norm_num at te2 ⊢ <;> linarith [te2.1, te2.2]
  have hs := abs_le.mp (f32_error (f32 (n : ℚ) - n) n hd hn)
  have ht0 : 0 < f32 (n : ℚ) := by linarith
  have hq : |f32 (f32 (n : ℚ) - n) / f32 (n : ℚ)| ≤ 4 / 2 ^ 24 := by
    rw [abs_div, abs_of_pos ht0, div_le_iff₀ ht0, abs_le]
    norm_num at te2 hs ⊢
    constructor <;> nlinarith [te2.1, te2.2, hs.1, hs.2]
  have hq1 : |f32 (f32 (n : ℚ) - n) / f32 (n : ℚ)| ≤ 1 := by
    refine le_trans hq ?_
    norm_num
  have hq2 := abs_le.mp (f32_error _ 1 hq1 (le_refl _))
  have hqa := abs_le.mp hq
  have hD0 := floatDepth_nonneg n (n : ℚ)
  have hD1 : floatDepth n (n : ℚ) ≤ 5 / 2 ^ 24 := by
    unfold floatDepth
    apply max_le (by norm_num)
    refine le_trans (min_le_right _ _) ?_
    norm_num at hq2 hqa ⊢
    linarith [hq2.2, hqa.2]
  have hsq0 : 0 ≤ floatDepth n (n : ℚ) * floatDepth n (n : ℚ) := by positivity
  have hsq1 : floatDepth n (n : ℚ) * floatDepth n (n : ℚ) ≤ 1 / 2 ^ 24 := by
    have : floatDepth n (n : ℚ) * floatDepth n (n : ℚ) ≤ 5 / 2 ^ 24 * (5 / 2 ^ 24) :=
      mul_le_mul hD1 hD1 hD0 (by norm_num)
    refine le_trans this ?_
    norm_num
  have hv := abs_le.mp (f32_error _ 1
    (by rw [abs_of_nonneg hsq0]; exact le_trans hsq1 (by norm_num)) (le_refl _))
  have hv0 := f32_nonneg _ hsq0
  have hp0 : 0 ≤ f32 (floatDepth n (n : ℚ) * floatDepth n (n : ℚ)) * 126 := by positivity
  have hp1 : f32 (floatDepth n (n : ℚ) * floatDepth n (n : ℚ)) * 126 ≤ 1 := by
    norm_num at hv hsq1 ⊢
    linarith [hv.2]
  have hw := abs_le.mp (f32_error _ 1 (by rw [abs_of_nonneg hp0]; exact hp1) (le_refl _))
  have hw0 := f32_nonneg _ hp0
  rw [Int.floor_eq_iff]
  constructor
  · simpa using hw0
  · norm_num at hw hv hsq1 ⊢
    linarith [hw.2, hv.2]

/-- Error of the quotient `s1 / tf` against `(T - a) / T` when `tf` and `s1`
carry one rounding error each. -/
theorem quotient_error (T tf s1 a : ℚ) (hT : 1 ≤ T)
    (ht1 : tf - T ≤ T / 16777216) (ht2 : -(T / 16777216) ≤ tf - T)
    (hs1 : s1 - (tf - a) ≤ 4 * T / 16777216) (hs2 : -(4 * T / 16777216) ≤ s1 - (tf - a))
    (ha0 : 0 ≤ a) (ha1 : a ≤ 2 * T) :
    |s1 / tf - (T - a) / T| ≤ 7 / 16777216 := by
  have hT0 : 0 < T := by linarith
  have htf : 0 < tf := by linarith
  have hden : 0 < tf * T := by positivity
  have e : s1 / tf - (T - a) / T = ((s1 - (tf - a)) * T + a * (tf - T)) / (tf * T) := by
    field_simp
    ring
  have k1 : (s1 - (tf - a)) * T ≤ 4 * T / 16777216 * T := mul_le_mul_of_nonneg_right hs1 hT0.le
  have k2 : -(4 * T / 16777216) * T ≤ (s1 - (tf - a)) * T :=
    mul_le_mul_of_nonneg_right hs2 hT0.le
  have k3 : a * (tf - T) ≤ a * (T / 16777216) := mul_le_mul_of_nonneg_left ht1 ha0
  have k4 : a * (-(T / 16777216)) ≤ a * (tf - T) := mul_le_mul_of_nonneg_left ht2 ha0
  have k5 : a * (T / 16777216) ≤ 2 * T * (T / 16777216) :=
    mul_le_mul_of_nonneg_right ha1 (by positivity)
  have k6 : T * T * (16777215 / 16777216) ≤ tf * T := by
    have : T * (16777215 / 16777216) ≤ tf := by linarith
    nlinarith
  have k7 : 0 ≤ T * T := by positivity
  rw [e, abs_le]
  constructor
  · rw [le_div_iff₀ hden]
    nlinarith
  · rw [div_le_iff₀ hden]
    nlinarith

/-- Error of the rounded product against the exact one when the depth carries
an error of at most 9 units of the last place of 1. -/
theorem product_error (D d v w : ℚ) (hD0 : 0 ≤ D) (hD1 : D ≤ 1) (hd0 : 0 ≤ d) (hd1 : d ≤ 1)
    (hDd : |D - d| ≤ 9 / 16777216) (hv : |v - D * D| ≤ 1 / 16777216)
    (hw : |w - v * 126| ≤ 126 / 16777216) :
    |w - d * d * 126| ≤ 1 / 1000 := by
  have a1 := abs_le.mp hDd
  have a2 := abs_le.mp hv
  have a3 := abs_le.mp hw
  have hsq1 : D * D - d * d ≤ 18 / 16777216 := by nlinarith [a1.1, a1.2]
  have hsq2 : -(18 / 16777216) ≤ D * D - d * d := by nlinarith [a1.1, a1.2]
  rw [abs_le]
  constructor <;> linarith [a2.1, a2.2, a3.1, a3.2]

theorem clamp_sub_le (p q : ℚ) : |max 0 (min 1 p) - max 0 (min 1 q)| ≤ |p - q| := by
  have h1 := neg_abs_le (p - q)
  have h2 := le_abs_self (p - q)
  simp only [max_def, min_def]
  split_ifs <;> rw [abs_le] <;> constructor <;> linarith

/-- A filtered value of at least twice the threshold gives depth 0. -/
theorem floatDepth_high (n : Nat) (a : ℚ) (h : 0 < n) (ha : 2 * (n : ℚ) ≤ a) :
    floatDepth n a = 0 := by
  obtain ⟨t1, _, _⟩ := f32_threshold n h
  have hn : (1 : ℚ) ≤ (n : ℚ) := by exact_mod_cast h
  obtain ⟨te1, _⟩ := f32_error_bounds (n : ℚ) n (by rw [abs_of_nonneg (by linarith)]) hn
  have ht0 : 0 < f32 (n : ℚ) := by linarith
  have hneg : f32 (n : ℚ) - a ≤ 0 := by linarith
  have h1 := f32_nonpos _ hneg
  have h2 : f32 (f32 (n : ℚ) - a) / f32 (n : ℚ) ≤ 0 :=
    div_nonpos_of_nonpos_of_nonneg h1 ht0.le
  have h3 := f32_nonpos _ h2
  unfold floatDepth
  apply max_eq_left
  exact le_trans (min_le_right _ _) h3

/-- The depth computed in single precision is within 9 units of the last
place of 1 of the exact depth, for filtered values between 0 and twice the
threshold. -/
theorem floatDepth_error (n : Nat) (a : ℚ) (h : 0 < n) (ha0 : 0 ≤ a) (ha1 : a ≤ 2 * (n : ℚ)) :
    |floatDepth n a - breakDepth n a| ≤ 9 / 16777216 := by
  have hn : (1 : ℚ) ≤ (n : ℚ) := by exact_mod_cast h
  obtain ⟨te1, te2⟩ := f32_error_bounds (n : ℚ) n (by rw [abs_of_nonneg (by linarith)]) hn
  have hB : |f32 (n : ℚ) - a| ≤ 4 * (n : ℚ) := by
    rw [abs_le]
    constructor <;> linarith
  obtain ⟨hs1, hs2⟩ := f32_error_bounds _ _ hB (by linarith)
  have hq := abs_le.mp (quotient_error (n : ℚ) (f32 (n : ℚ)) (f32 (f32 (n : ℚ) - a)) a hn
    te1 te2 hs1 hs2 ha0 ha1)
  have hT : (0 : ℚ) < (n : ℚ) := by linarith
  have hq0a : -1 ≤ ((n : ℚ) - a) / n := by
    rw [le_div_iff₀ hT]
    linarith
  have hq0b : ((n : ℚ) - a) / n ≤ 1 := by
    rw [div_le_iff₀ hT]
    linarith
  have hq1 : |f32 (f32 (n : ℚ) - a) / f32 (n : ℚ)| ≤ 2 := by
    rw [abs_le]
    constructor <;> linarith [hq.1, hq.2]
  obtain ⟨hr1, hr2⟩ := f32_error_bounds _ 2 hq1 (by norm_num)
  have hq2 : |f32 (f32 (f32 (n : ℚ) - a) / f32 (n : ℚ)) - ((n : ℚ) - a) / n| ≤
      9 / 16777216 := by
    rw [abs_le]
    constructor <;> linarith [hq.1, hq.2]
  exact le_trans (clamp_sub_le _ _) hq2

/-- The product computed in single precision is within 1/1000 of the exact
square of the exact depth times 126. -/
theorem floatProduct_error (n : Nat) (a : ℚ) (h : 0 < n) :
    |f32 (f32 (floatDepth n a * floatDepth n a) * 126) -
      breakDepth n a * breakDepth n a * 126| ≤ 1 / 1000 := by
  have hn : (1 : ℚ) ≤ (n : ℚ) := by exact_mod_cast h
  have hT : (0 : ℚ) < (n : ℚ) := by linarith
  rcases le_or_lt a 0 with hlow | hpos
  · have hb : breakDepth n a = 1 := by
      unfold breakDepth
      have : 1 ≤ ((n : ℚ) - a) / n := by
        rw [le_div_iff₀ hT]
        linarith
      rw [min_eq_left this]
      norm_num
    rw [floatDepth_low n a h hlow, hb, one_mul, f32_one, one_mul, f32_126]
    norm_num
  rcases le_or_lt (2 * (n : ℚ)) a with hhigh | hmid
  · have hb : breakDepth n a = 0 := by
      unfold breakDepth
      apply max_eq_left
      refine le_trans (min_le_right _ _) ?_
      apply div_nonpos_of_nonpos_of_nonneg _ hT.le
      linarith
    rw [floatDepth_high n a h hhigh, hb, zero_mul, f32_zero, zero_mul, f32_zero]
    norm_num
  have hD := floatDepth_error n a h hpos.le hmid.le
  have D0 := floatDepth_nonneg n a
  have D1 := floatDepth_le_one n a
  obtain ⟨v0, v1, w0, w1⟩ := f32_square_range _ D0 D1
  have hsq0 : 0 ≤ floatDepth n a * floatDepth n a := mul_nonneg D0 D0
  have hsq1 : floatDepth n a * floatDepth n a ≤ 1 := by nlinarith
  obtain ⟨hv1, hv2⟩ := f32_error_bounds (floatDepth n a * floatDepth n a) 1
    (by rw [abs_of_nonneg hsq0]; exact hsq1) (le_refl _)
  have hp0 : 0 ≤ f32 (floatDepth n a * floatDepth n a) * 126 := by positivity
  obtain ⟨hw1, hw2⟩ := f32_error_bounds (f32 (floatDepth n a * floatDepth n a) * 126) 126
    (by rw [abs_of_nonneg hp0]; linarith) (by norm_num)
  exact product_error (floatDepth n a) (breakDepth n a) _ _ D0 D1 (breakDepth_nonneg n a)
    (breakDepth_le_one n a) hD (abs_le.mpr ⟨hv2, hv1⟩) (abs_le.mpr ⟨hw2, hw1⟩)

set_option maxRecDepth 1000000 in
/-- C12 (counterexample): with threshold 700 and filtered value 140 the depth
is 0.8 and the square times 126 is 80.64 (80.640002... in single precision);
`CalculateVelocity` returns 81, the rounded formula gives 82. -/
theorem calculateVelocity_not_rounded :
    0 < freshManager.thresholds_ 0 ∧
      ((freshManager.thresholds_ 0 : Nat) : ℚ) = 700 ∧
      CalculateVelocity freshManager 140 0 = 81 ∧
      specIntensity 700 140 = 82 ∧
      ((CalculateVelocity freshManager 140 0 : Nat) : Int) ≠
        specIntensity ((freshManager.thresholds_ 0 : Nat) : ℚ) 140 := by
  decide!

/-- C12 (amended): for every threshold above 0 and every filtered value, the
intensity computed by `CalculateVelocity` is `depth^2 * 126` with the fraction
discarded, plus 1, where `depth` is `(threshold - filtered) / threshold`
clamped to 0..1, up to the rounding of the single-precision operations: it is
more than `depth^2 * 126 - 1/1000` and at most `depth^2 * 126 + 1 + 1/1000`.
The product is truncated by the cast to `uint8_t`, not rounded to the nearest
integer. -/
theorem calculateVelocity_truncates (s : LaserBeamManager) (analogValue : ℚ) (beamIndex : Nat)
    (hthr : 0 < s.thresholds_ beamIndex) :
    (max 0 (min 1 ((((s.thresholds_ beamIndex : Nat) : ℚ) - analogValue) /
          ((s.thresholds_ beamIndex : Nat) : ℚ)))) ^ 2 * 126 - 1 / 1000 <
        ((CalculateVelocity s analogValue beamIndex : Nat) : ℚ) ∧
      ((CalculateVelocity s analogValue beamIndex : Nat) : ℚ) ≤
        (max 0 (min 1 ((((s.thresholds_ beamIndex : Nat) : ℚ) - analogValue) /
          ((s.thresholds_ beamIndex : Nat) : ℚ)))) ^ 2 * 126 + 1 + 1 / 1000 := by
  have he := abs_le.mp (floatProduct_error (s.thresholds_ beamIndex) analogValue hthr)
  have hb : breakDepth (s.thresholds_ beamIndex) analogValue =
      max 0 (min 1 ((((s.thresholds_ beamIndex : Nat) : ℚ) - analogValue) /
        ((s.thresholds_ beamIndex : Nat) : ℚ))) := rfl
  rw [← hb, pow_two]
  have hcv := (CalculateVelocity_eq s analogValue beamIndex).1
  have hq : ((CalculateVelocity s analogValue beamIndex : Nat) : ℚ) =
      (⌊f32 (f32 (floatDepth (s.thresholds_ beamIndex) analogValue *
        floatDepth (s.thresholds_ beamIndex) analogValue) * 126)⌋ : ℚ) + 1 := by
    have : (((CalculateVelocity s analogValue beamIndex : Nat) : Int) : ℚ) =
        ((⌊f32 (f32 (floatDepth (s.thresholds_ beamIndex) analogValue *
          floatDepth (s.thresholds_ beamIndex) analogValue) * 126)⌋ + 1 : Int) : ℚ) := by
      rw [hcv]
    push_cast at this
    exact this
  have f1 := Int.floor_le (f32 (f32 (floatDepth (s.thresholds_ beamIndex) analogValue *
    floatDepth (s.thresholds_ beamIndex) analogValue) * 126))
  have f2 := Int.lt_floor_add_one (f32 (f32 (floatDepth (s.thresholds_ beamIndex) analogValue *
    floatDepth (s.thresholds_ beamIndex) analogValue) * 126))
  rw [hq]
  constructor <;> linarith [he.1, he.2]

/-- Witness of C12 (amended): threshold 700, filtered value 140. -/
theorem calculateVelocity_truncates_witness :
    (max 0 (min 1 ((((freshManager.thresholds_ 0 : Nat) : ℚ) - 140) /
          ((freshManager.thresholds_ 0 : Nat) : ℚ)))) ^ 2 * 126 - 1 / 1000 <
        ((CalculateVelocity freshManager 140 0 : Nat) : ℚ) ∧
      ((CalculateVelocity freshManager 140 0 : Nat) : ℚ) ≤
        (max 0 (min 1 ((((freshManager.thresholds_ 0 : Nat) : ℚ) - 140) /
          ((freshManager.thresholds_ 0 : Nat) : ℚ)))) ^ 2 * 126 + 1 + 1 / 1000 :=
  calculateVelocity_truncates freshManager 140 0 (by decide)

set_option maxRecDepth 1000000 in
/-- Single precision at work: with threshold 716 and filtered value 29 the
exact product `depth^2 * 126` is 115.99995..., so that its integer part plus 1
is 116; computed in single precision the product is 116 and
`CalculateVelocity` returns 117. -/
theorem calculateVelocity_rounding_example :
    (SetSensorThreshold freshManager 0 716).thresholds_ 0 = 716 ∧
      CalculateVelocity (SetSensorThreshold freshManager 0 716) 29 0 = 117 ∧
      ⌊breakDepth 716 29 * breakDepth 716 29 * 126⌋ + 1 = 116 := by
  decide!

/-- C13: for every threshold above 0, `CalculateVelocity` returns a value
between 1 and 127 for every filtered value `analogValue`, returns 1 when the
filtered value equals the threshold and 127 when the filtered value (`low`) is
at most 0. -/
theorem calculateVelocity_range (s : LaserBeamManager) (analogValue low : ℚ) (beamIndex : Nat)
    (hthr : 0 < s.thresholds_ beamIndex) (hlow : low ≤ 0) :
    1 ≤ CalculateVelocity s analogValue beamIndex ∧
      CalculateVelocity s analogValue beamIndex ≤ 127 ∧
      CalculateVelocity s ((s.thresholds_ beamIndex : Nat) : ℚ) beamIndex = 1 ∧
      CalculateVelocity s low beamIndex = 127 := by
  refine ⟨(CalculateVelocity_eq s analogValue beamIndex).2.1,
    (CalculateVelocity_eq s analogValue beamIndex).2.2, ?_, ?_⟩
  · have h := (CalculateVelocity_eq s ((s.thresholds_ beamIndex : Nat) : ℚ) beamIndex).1
    have hw := floatDepth_at_threshold (s.thresholds_ beamIndex) hthr
    rw [hw] at h
    exact_mod_cast h
  · have h := (CalculateVelocity_eq s low beamIndex).1
    rw [floatDepth_low _ low hthr hlow] at h
    have hf : ⌊f32 (f32 ((1 : ℚ) * 1) * 126)⌋ = 126 := by
      rw [one_mul, f32_one, one_mul, f32_126]
      norm_num
    rw [hf] at h
    exact_mod_cast h

/-- Witness of C13: threshold 700, filtered values 350 and -5. -/
theorem calculateVelocity_range_witness :
    1 ≤ CalculateVelocity freshManager 350 0 ∧
      CalculateVelocity freshManager 350 0 ≤ 127 ∧
      CalculateVelocity freshManager ((freshManager.thresholds_ 0 : Nat) : ℚ) 0 = 1 ∧
      CalculateVelocity freshManager (-5) 0 = 127 :=
  calculateVelocity_range freshManager 350 (-5) 0 (by decide) (by decide!)

/-! ## Claims on the events of the classifier -/

theorem ProcessBeamStates_cases (s : LaserBeamManager) (now nowEvent : Nat) :
    ProcessBeamStates s now nowEvent = s ∨
      (s.beamStates_ s.currentBeamIndex_ = false ∧
        s.filteredValues_ s.currentBeamIndex_ ≤ ((s.thresholds_ s.currentBeamIndex_ : Nat) : ℚ) ∧
        ProcessBeamStates s now nowEvent =
          QueueEvent (confirmTransition s true now) BeamEventType.BEAM_BROKEN s.currentBeamIndex_
            (CalculateVelocity (confirmTransition s true now)
              (s.filteredValues_ s.currentBeamIndex_) s.currentBeamIndex_)
            (s.filteredValues_ s.currentBeamIndex_) nowEvent) ∨
      (s.beamStates_ s.currentBeamIndex_ = true ∧
        ¬ s.filteredValues_ s.currentBeamIndex_ ≤ ((s.thresholds_ s.currentBeamIndex_ : Nat) : ℚ) ∧
        ProcessBeamStates s now nowEvent =
          QueueEvent (confirmTransition s false now) BeamEventType.BEAM_RESTORED
            s.currentBeamIndex_ 0 (s.filteredValues_ s.currentBeamIndex_) nowEvent) := by
  unfold ProcessBeamStates confirmTransition
  by_cases h1 : (!s.atBeamPosition_ || !s.laserState_) = true
  · left
    simp only [h1, if_true]
  · by_cases hgt : sub32 (now % U32) (s.lastStateChange_ s.currentBeamIndex_) >
        DEBOUNCE_TIME_MS * 1000
    · by_cases hle : s.filteredValues_ s.currentBeamIndex_ ≤
          ((s.thresholds_ s.currentBeamIndex_ : Nat) : ℚ)
      · cases hp : s.beamStates_ s.currentBeamIndex_ with
        | false =>
          right
          left
          refine ⟨rfl, hle, ?_⟩
          simp [h1, hgt, hle, hp]
        | true =>
          left
          simp [h1, hle, hp]
      · cases hp : s.beamStates_ s.currentBeamIndex_ with
        | false =>
          left
          simp [h1, hle, hp]
        | true =>
          right
          right
          refine ⟨rfl, hle, ?_⟩
          simp [h1, hgt, hle, hp]
    · left
      simp [h1, hgt]

set_option maxRecDepth 1000000 in
/-- C11 (what the code does instead): in the seven-beam scan the filtered value
of beam 2 is above its threshold after every call from `Init` to call 27 and
the beam is never interrupted, yet call 27 queues an event for beam 2; this
first event is a Restored event and it is queued while `IsBeamBroken(2)` goes
from false to true. -/
theorem unbroken_beam_produces_restored_event :
    ((List.range 28).all (fun k =>
        decide ((((scan7 k).thresholds_ 2 : Nat) : ℚ) < (scan7 k).filteredValues_ 2))) = true ∧
      pendingEvents (scan7 26) = [] ∧
      pendingEvents (scan7 27) = [restoredEvent27] ∧
      IsBeamBroken (scan7 26) 2 = false ∧
      IsBeamBroken (scan7 27) 2 = true := by
  decide!

/-- C14: when `ProcessBeamStates` adds an event `e` to the queue and `e` is a
Restored event, `e` carries intensity 0 and the index of the current beam, and
this is the beam whose stored state has just changed and whose transition time
has just been recorded. -/
theorem restored_event_has_zero_intensity (s : LaserBeamManager) (now nowEvent : Nat)
    (e : BeamEvent) (hq : QueueInv s)
    (hnew : pendingEvents (ProcessBeamStates s now nowEvent) = pendingEvents s ++ [e])
    (hty : e.type = BeamEventType.BEAM_RESTORED) :
    e.velocity = 0 ∧ e.beamIndex = s.currentBeamIndex_ ∧
      (ProcessBeamStates s now nowEvent).beamStates_ s.currentBeamIndex_ ≠
        s.beamStates_ s.currentBeamIndex_ ∧
      (ProcessBeamStates s now nowEvent).lastStateChange_ s.currentBeamIndex_ = now % U32 := by
  rcases ProcessBeamStates_cases s now nowEvent with h | ⟨hp, _, h⟩ | ⟨hp, _, h⟩
  · rw [h] at hnew
    have hl := congrArg List.length hnew
    simp at hl
  · have hq1 : QueueInv (confirmTransition s true now) := hq
    rw [h, pendingEvents_QueueEvent _ _ _ _ _ _ hq1] at hnew
    have hs : pendingEvents (confirmTransition s true now) = pendingEvents s := rfl
    rw [hs] at hnew
    unfold BoundedFifo.push at hnew
    split_ifs at hnew
    · have he := List.append_cancel_left hnew
      simp only [List.cons.injEq, and_true] at he
      rw [← he] at hty
      simp at hty
    · have hl := congrArg List.length hnew
      simp at hl
  · have hq1 : QueueInv (confirmTransition s false now) := hq
    have hnew2 := hnew
    rw [h, pendingEvents_QueueEvent _ _ _ _ _ _ hq1] at hnew2
    have hs : pendingEvents (confirmTransition s false now) = pendingEvents s := rfl
    rw [hs] at hnew2
    unfold BoundedFifo.push at hnew2
    split_ifs at hnew2
    · have he := List.append_cancel_left hnew2
      simp only [List.cons.injEq, and_true] at he
      rw [← he, h, beamStates_QueueEvent, lastStateChange_QueueEvent, hp]
      simp [confirmTransition]
    · have hl := congrArg List.length hnew2
      simp at hl

set_option maxRecDepth 1000000 in
/-- Witness of C14: the Restored event queued by call 27 of the seven-beam
scan. -/
theorem restored_event_has_zero_intensity_witness :
    restoredEvent27.velocity = 0 ∧
      restoredEvent27.beamIndex = beforeProcess27.currentBeamIndex_ ∧
      (ProcessBeamStates beforeProcess27 5400 5400).beamStates_
          beforeProcess27.currentBeamIndex_ ≠
        beforeProcess27.beamStates_ beforeProcess27.currentBeamIndex_ ∧
      (ProcessBeamStates beforeProcess27 5400 5400).lastStateChange_
          beforeProcess27.currentBeamIndex_ = 5400 % U32 :=
  restored_event_has_zero_intensity beforeProcess27 5400 5400 restoredEvent27
    (by unfold QueueInv; decide!) (by decide!) rfl

/-! ## Claims on the calibration -/

set_option maxRecDepth 1000000 in
/-- C15 (what the code does instead): `StartCalibration` sets the calibrating
flag and leaves the active calibration beam and the sample count as they were;
started again after an aborted calibration the sample count is still 3, and
after a completed calibration of seven beams the active beam is still 7. -/
theorem startCalibration_keeps_session (s : LaserBeamManager) :
    (StartCalibration s).calibrationBeam_ = s.calibrationBeam_ ∧
      (StartCalibration s).calibrationSampleCount_ = s.calibrationSampleCount_ ∧
      IsCalibrating (StartCalibration s) = true ∧
      calibrationRestarted.calibrationSampleCount_ = 3 ∧
      IsCalibrating calibrationCompleted = false ∧
      (StartCalibration calibrationCompleted).calibrationBeam_ = 7 ∧
      IsCalibrating (StartCalibration calibrationCompleted) = true :=
  ⟨rfl, rfl, rfl, by decide!, by decide!, by decide!, by decide!⟩

set_option maxRecDepth 1000000 in
/-- C20 (what the code does instead): a calibration ended by `EndCalibration`
after one call of `Update`, and a one-beam calibration that completes by itself
at call 101, both end with the emitter on and the motion state Scanning, where
`StopScanning` switches the emitter off and sets the state Idle. -/
theorem endCalibration_leaves_emitter_on :
    IsCalibrating calibrationEnded = false ∧
      calibrationEnded.laserState_ = true ∧
      GetServoState calibrationEnded = ServoState.SERVO_SCANNING ∧
      (StopScanning (runTicks (StartCalibration configured7) (steadyTicks 1))).laserState_ =
        false ∧
      GetServoState (StopScanning (runTicks (StartCalibration configured7) (steadyTicks 1))) =
        ServoState.SERVO_IDLE ∧
      IsCalibrating (runTicks (StartCalibration (Init freshManager (some cfg1) (fun _ => 0)))
        (steadyTicks 100)) = true ∧
      IsCalibrating calibrationCompleted1 = false ∧
      calibrationCompleted1.laserState_ = true ∧
      GetServoState calibrationCompleted1 = ServoState.SERVO_SCANNING := by
  decide!

/-! ## Claims on stopping -/

theorem truncU16_of_range (x : ℚ) (h0 : 0 ≤ x) (h1 : x < 65536) :
    ((truncU16 x : Nat) : ℚ) ≤ x ∧ x < ((truncU16 x : Nat) : ℚ) + 1 := by
  have f0 : 0 ≤ ⌊x⌋ := Int.floor_nonneg.mpr h0
  have f1 : ⌊x⌋ < 65536 := by
    rw [Int.floor_lt]
    exact_mod_cast h1
  have e : ((truncU16 x : Nat) : Int) = ⌊x⌋ := by
    unfold truncU16
    omega
  have e2 : ((truncU16 x : Nat) : ℚ) = ((⌊x⌋ : Int) : ℚ) := by
    rw [← e]
    rfl
  rw [e2]
  exact ⟨Int.floor_le x, Int.lt_floor_add_one x⟩

theorem feedSample_store (s : LaserBeamManager) (v : ℚ)
    (hcal : s.isCalibrating_ = true) (hc : s.calibrationSampleCount_ < 100) :
    (feedSample s v).isCalibrating_ = true ∧
      (feedSample s v).calibrationBeam_ = s.calibrationBeam_ ∧
      (feedSample s v).calibrationSampleCount_ = s.calibrationSampleCount_ + 1 ∧
      (feedSample s v).thresholds_ = s.thresholds_ ∧
      storedSamples (feedSample s v) = storedSamples s ++ [v] := by
  unfold feedSample ProcessCalibration
  simp only [hcal, Bool.not_true, Bool.false_eq_true, if_false, hc, if_true]
  refine ⟨trivial, trivial, trivial, trivial, ?_⟩
  simp only [storedSamples, List.range_succ, List.map_append, List.map_cons, List.map_nil,
    Function.update_same]
  congr 1
  apply List.map_congr_left
  intro i hi
  rw [List.mem_range] at hi
  exact Function.update_noteq (by omega) _ _

theorem feedSamples_store (l : List ℚ) (s : LaserBeamManager)
    (hcal : s.isCalibrating_ = true) (hlen : s.calibrationSampleCount_ + l.length ≤ 100) :
    (feedSamples s l).isCalibrating_ = true ∧
      (feedSamples s l).calibrationBeam_ = s.calibrationBeam_ ∧
      (feedSamples s l).calibrationSampleCount_ = s.calibrationSampleCount_ + l.length ∧
      (feedSamples s l).thresholds_ = s.thresholds_ ∧
      storedSamples (feedSamples s l) = storedSamples s ++ l := by
  induction l generalizing s with
  | nil => exact ⟨hcal, rfl, rfl, rfl, (List.append_nil _).symm⟩
  | cons v l ih =>
    simp only [List.length_cons] at hlen
    obtain ⟨a1, a2, a3, a4, a5⟩ := feedSample_store s v hcal (by omega)
    obtain ⟨b1, b2, b3, b4, b5⟩ := ih (feedSample s v) a1 (by rw [a3]; omega)
    have hcons : feedSamples s (v :: l) = feedSamples (feedSample s v) l := rfl
    rw [hcons]
    refine ⟨b1, b2.trans a2, ?_, b4.trans a4, ?_⟩
    · rw [b3, a3, List.length_cons]
      omega
    · rw [b5, a5, List.append_assoc, List.singleton_append]

theorem f32_085 : f32 (85 / 100) = 7130317 / 8388608 := by
  decide!

/-- The single-precision sum of a list, as the loop of `CalculateThresholds` forms it. -/
theorem f32_foldl_error (l : List ℚ) (acc S : ℚ) (k : Nat)
    (hk : k + l.length ≤ 100) (hS0 : 0 ≤ S) (hS : S ≤ 1023 * k) (h0 : 0 ≤ acc)
    (hacc : |acc - S| ≤ k * (102301 / 2 ^ 24))
    (hl : ∀ v ∈ l, 0 ≤ v ∧ v ≤ 1023) :
    0 ≤ l.foldl (fun a v => f32 (a + v)) acc ∧
      |l.foldl (fun a v => f32 (a + v)) acc - (S + l.sum)| ≤
        ((k + l.length : Nat) : ℚ) * (102301 / 2 ^ 24) := by
  induction l generalizing acc S k with
  | nil =>
    simp only [List.foldl_nil, List.sum_nil, add_zero, List.length_nil]
    exact ⟨h0, hacc⟩
  | cons v l ih =>
    simp only [List.length_cons] at hk
    have hv := hl v (List.mem_cons_self v l)
    have hk100 : (k : ℚ) ≤ 99 := by exact_mod_cast (by omega : k ≤ 99)
    have hk0 : (0 : ℚ) ≤ k := Nat.cast_nonneg k
    have habs := abs_le.mp hacc
    have hB : |acc + v| ≤ 102301 := by
      rw [abs_le]
      constructor <;> nlinarith [hv.1, hv.2]
    have he := f32_error (acc + v) 102301 hB (by norm_num)
    have he2 := abs_le.mp he
    have hstep : |f32 (acc + v) - (S + v)| ≤ ((k + 1 : Nat) : ℚ) * (102301 / 2 ^ 24) := by
      rw [abs_le]
      push_cast
      constructor <;> linarith [he2.1, he2.2, habs.1, habs.2]
    have hrec := ih (f32 (acc + v)) (S + v) (k + 1) (by omega) (by linarith [hv.1])
      (by push_cast; linarith [hv.2]) (f32_nonneg _ (by linarith [hv.1])) hstep
      (fun w hw => hl w (List.mem_cons_of_mem v hw))
    simp only [List.foldl_cons, List.sum_cons, List.length_cons]
    refine ⟨hrec.1, ?_⟩
    have e1 : S + (v + l.sum) = S + v + l.sum := by ring
    have e2 : k + (l.length + 1) = k + 1 + l.length := by omega
    rw [e1, e2]
    exact hrec.2

theorem CalculateThresholds_sum (s : LaserBeamManager) :
    (List.range s.calibrationSampleCount_).foldl
        (fun acc i => f32 (acc + s.calibrationValues_ s.calibrationBeam_ i)) 0 =
      (storedSamples s).foldl (fun a v => f32 (a + v)) 0 := by
  unfold storedSamples
  rw [List.foldl_map]

theorem ProcessCalibration_evaluate (s : LaserBeamManager)
    (hcal : s.isCalibrating_ = true) (hc : s.calibrationSampleCount_ = 100)
    (hb : s.calibrationBeam_ < 255) :
    (ProcessCalibration s).thresholds_ =
        Function.update s.thresholds_ s.calibrationBeam_
          (truncU16 (f32 (f32 ((storedSamples s).foldl (fun a v => f32 (a + v)) 0 / 100) *
            f32 (85 / 100)))) ∧
      (ProcessCalibration s).calibrationBeam_ = s.calibrationBeam_ + 1 ∧
      (ProcessCalibration s).calibrationSampleCount_ = 0 := by
  have hsum := CalculateThresholds_sum s
  have h256 : (s.calibrationBeam_ + 1) % 256 = s.calibrationBeam_ + 1 := by omega
  rw [hc] at hsum
  unfold ProcessCalibration
  simp only [hcal, Bool.not_true, Bool.false_eq_true, if_false, hc, lt_self_iff_false]
  simp only [CalculateThresholds, EndCalibration, hsum, hc, h256, Nat.cast_ofNat]
  split_ifs
  · exact ⟨rfl, rfl, rfl⟩
  · exact ⟨rfl, rfl, rfl⟩

/-- The threshold computed in single precision from 100 samples in the range
of the sensor lies within 1/100 of 0.85 times their mean, before truncation. -/
theorem f32_threshold_error (l : List ℚ) (hlen : l.length = 100)
    (hl : ∀ v ∈ l, 0 ≤ v ∧ v ≤ 1023) :
    0 ≤ f32 (f32 (l.foldl (fun a v => f32 (a + v)) 0 / 100) * f32 (85 / 100)) ∧
      |f32 (f32 (l.foldl (fun a v => f32 (a + v)) 0 / 100) * f32 (85 / 100)) -
        85 / 100 * (l.sum / 100)| ≤ 1 / 100 ∧
      0 ≤ l.sum ∧ l.sum ≤ 102300 := by
  have hsum0 : 0 ≤ l.sum := List.sum_nonneg (fun v hv => (hl v hv).1)
  have hsum1 : l.sum ≤ 102300 := by
    have h := List.sum_le_card_nsmul l 1023 (fun v hv => (hl v hv).2)
    rw [hlen] at h
    simp only [nsmul_eq_mul, Nat.cast_ofNat] at h
    linarith
  obtain ⟨hF0, hF⟩ := f32_foldl_error l 0 0 0 (by omega) (le_refl _) (by simp) (le_refl _)
    (by simp) hl
  rw [hlen] at hF
  simp only [zero_add, Nat.cast_ofNat] at hF
  have hF2 := abs_le.mp hF
  set F := l.foldl (fun a v => f32 (a + v)) 0 with hFdef
  have hA0 : 0 ≤ F / 100 := by positivity
  have hAB : |F / 100| ≤ 1024 := by
    rw [abs_of_nonneg hA0]
    linarith [hF2.2]
  have hAe := abs_le.mp (f32_error (F / 100) 1024 hAB (by norm_num))
  have hAn := f32_nonneg (F / 100) hA0
  set A := f32 (F / 100) with hAdef
  rw [f32_085]
  have hP0 : 0 ≤ A * (7130317 / 8388608) := by positivity
  have hPB : |A * (7130317 / 8388608)| ≤ 1024 := by
    rw [abs_of_nonneg hP0]
    linarith [hAe.2, hF2.2]
  have hPe := abs_le.mp (f32_error (A * (7130317 / 8388608)) 1024 hPB (by norm_num))
  refine ⟨f32_nonneg _ hP0, ?_, hsum0, hsum1⟩
  rw [abs_le]
  norm_num at hAe hPe hF2 ⊢
  constructor <;> linarith [hAe.1, hAe.2, hPe.1, hPe.2, hF2.1, hF2.2]


set_option maxRecDepth 1000000 in
/-- C16 (counterexample): 100 samples of the `float` 182.35299682617188 fed to
the calibration of beam 0 from sample count 0: 0.85 times the mean is
155.00004..., the threshold stored is 154 and so differs from it by more than
1 (the single-precision sum falls short of the exact one). -/
theorem calibration_threshold_off_by_more_than_one :
    (StartCalibration configured7).isCalibrating_ = true ∧
      (StartCalibration configured7).calibrationSampleCount_ = 0 ∧
      (StartCalibration configured7).calibrationBeam_ = 0 ∧
      (List.replicate 100 (5975343 / 32768 : ℚ)).length = 100 ∧
      (ProcessCalibration (feedSamples (StartCalibration configured7)
        (List.replicate 100 (5975343 / 32768)))).thresholds_ 0 = 154 ∧
      (1 : ℚ) ≤ 85 / 100 * ((List.replicate 100 (5975343 / 32768 : ℚ)).sum / 100) -
        (((ProcessCalibration (feedSamples (StartCalibration configured7)
          (List.replicate 100 (5975343 / 32768)))).thresholds_ 0 : Nat) : ℚ) := by
  decide!

/-- C16 (amended): starting with sample count 0 on active beam `b`, after 100
samples between 0 and 1023 have been fed and the full buffer is evaluated by
the next call of `ProcessCalibration`, the threshold of beam `b` is 0.85 times
the mean of the samples up to the truncation to an integer and the rounding of
the single-precision sum, mean and product: it is more than 0.85 times the
mean minus 1.01 and at most 0.85 times the mean plus 0.01; the active beam is
`b + 1`, the sample count is 0 and the threshold of every other beam `j` is
unchanged. -/
theorem calibration_threshold_near_mean (s : LaserBeamManager) (samples : List ℚ) (j : Nat)
    (hcal : s.isCalibrating_ = true) (hcount : s.calibrationSampleCount_ = 0)
    (hb : s.calibrationBeam_ < 16) (hlen : samples.length = 100)
    (hrange : ∀ v ∈ samples, 0 ≤ v ∧ v ≤ 1023)
    (hj : j ≠ s.calibrationBeam_) :
    85 / 100 * (samples.sum / 100) - 101 / 100 <
        (((ProcessCalibration (feedSamples s samples)).thresholds_ s.calibrationBeam_ : Nat) : ℚ) ∧
      (((ProcessCalibration (feedSamples s samples)).thresholds_ s.calibrationBeam_ : Nat) : ℚ) ≤
        85 / 100 * (samples.sum / 100) + 1 / 100 ∧
      (ProcessCalibration (feedSamples s samples)).calibrationBeam_ = s.calibrationBeam_ + 1 ∧
      (ProcessCalibration (feedSamples s samples)).calibrationSampleCount_ = 0 ∧
      (ProcessCalibration (feedSamples s samples)).thresholds_ j = s.thresholds_ j := by
  obtain ⟨a1, a2, a3, a4, a5⟩ := feedSamples_store samples s hcal (by omega)
  have hst : storedSamples s = [] := by simp [storedSamples, hcount]
  rw [hst, List.nil_append] at a5
  obtain ⟨b1, b2, b3⟩ := ProcessCalibration_evaluate (feedSamples s samples) a1
    (by rw [a3, hcount, hlen]) (by rw [a2]; omega)
  rw [a5, a2, a4] at b1
  rw [a2] at b2
  obtain ⟨p0, pe, s0, s1⟩ := f32_threshold_error samples hlen hrange
  have pe2 := abs_le.mp pe
  have hfit : f32 (f32 (samples.foldl (fun a v => f32 (a + v)) 0 / 100) * f32 (85 / 100)) <
      65536 := by linarith [pe2.2]
  obtain ⟨c1, c2⟩ := truncU16_of_range _ p0 hfit
  rw [b1]
  refine ⟨?_, ?_, b2, b3, ?_⟩
  · rw [Function.update_same]
    linarith [pe2.1]
  · rw [Function.update_same]
    linarith [pe2.2]
  · exact Function.update_noteq hj _ _

set_option maxRecDepth 1000000 in
/-- Witness of C16 (amended): 100 samples of value 800 for beam 0 give
threshold 680. -/
theorem calibration_threshold_near_mean_witness :
    (ProcessCalibration (feedSamples (StartCalibration configured7)
        (List.replicate 100 800))).thresholds_ 0 = 680 ∧
    (85 / 100 * ((List.replicate 100 (800 : ℚ)).sum / 100) - 101 / 100 <
        (((ProcessCalibration (feedSamples (StartCalibration configured7)
          (List.replicate 100 800))).thresholds_
            (StartCalibration configured7).calibrationBeam_ : Nat) : ℚ) ∧
      (((ProcessCalibration (feedSamples (StartCalibration configured7)
          (List.replicate 100 800))).thresholds_
            (StartCalibration configured7).calibrationBeam_ : Nat) : ℚ) ≤
        85 / 100 * ((List.replicate 100 (800 : ℚ)).sum / 100) + 1 / 100 ∧
      (ProcessCalibration (feedSamples (StartCalibration configured7)
          (List.replicate 100 800))).calibrationBeam_ =
        (StartCalibration configured7).calibrationBeam_ + 1 ∧
      (ProcessCalibration (feedSamples (StartCalibration configured7)
          (List.replicate 100 800))).calibrationSampleCount_ = 0 ∧
      (ProcessCalibration (feedSamples (StartCalibration configured7)
          (List.replicate 100 800))).thresholds_ 1 =
        (StartCalibration configured7).thresholds_ 1) :=
  ⟨by decide!,
    calibration_threshold_near_mean (StartCalibration configured7) (List.replicate 100 800) 1
      rfl rfl (by decide) (by decide) (by decide!) (by decide)⟩

/-! ## Claims on the end of the calibration -/

theorem calFrame_CalculateNextBeamPosition (s : LaserBeamManager) :
    calFrame (CalculateNextBeamPosition s) = calFrame s := by
  unfold CalculateNextBeamPosition
  simp only [calFrame]
  split_ifs <;> rfl

theorem calFrame_UpdateScanningMotion (s : LaserBeamManager) (t : Nat) :
    calFrame (UpdateScanningMotion s t) = calFrame s := by
  have hc := fun x => calFrame_CalculateNextBeamPosition x
  simp only [calFrame, Prod.mk.injEq] at hc
  unfold UpdateScanningMotion MakeStep SetLaserState GetCurrentBeamIndex
  simp only [calFrame]
  split_ifs <;> simp only [hc]

theorem calFrame_UpdateServo (s : LaserBeamManager) (now : Nat) :
    calFrame (UpdateServo s now) = calFrame s := by
  unfold UpdateServo UpdateCalibrationMotion
  split
  all_goals first
    | rfl
    | exact calFrame_UpdateScanningMotion _ _

theorem calFrame_FilterSensorValues (s : LaserBeamManager) :
    calFrame (FilterSensorValues s) = calFrame s := by
  unfold FilterSensorValues
  split_ifs <;> rfl

theorem calFrame_QueueEvent (s : LaserBeamManager) (type : BeamEventType)
    (beam velocity : Nat) (analogValue : ℚ) (now : Nat) :
    calFrame (QueueEvent s type beam velocity analogValue now) = calFrame s := by
  unfold QueueEvent
  split_ifs <;> rfl

theorem calFrame_ProcessBeamStates (s : LaserBeamManager) (now nowEvent : Nat) :
    calFrame (ProcessBeamStates s now nowEvent) = calFrame s := by
  rcases ProcessBeamStates_cases s now nowEvent with h | ⟨_, _, h⟩ | ⟨_, _, h⟩
  · rw [h]
  · rw [h, calFrame_QueueEvent]
    rfl
  · rw [h, calFrame_QueueEvent]
    rfl

theorem calFrame_beforeCalibration (s : LaserBeamManager) (inp : TickInput) :
    calFrame (ProcessBeamStates
        (UpdateServo (FilterSensorValues (ReadSensors s inp.adc)) inp.nowServo)
        inp.nowProcess inp.nowEvent) = calFrame s := by
  rw [calFrame_ProcessBeamStates, calFrame_UpdateServo, calFrame_FilterSensorValues]
  rfl

theorem Update_due_eq (s : LaserBeamManager) (inp : TickInput)
    (h : sub32 (inp.now % U32) s.lastUpdateTime_ ≥ s.updateInterval_) :
    calFrame (Update s inp) =
      calFrame (if (ProcessBeamStates
          (UpdateServo (FilterSensorValues (ReadSensors s inp.adc)) inp.nowServo)
          inp.nowProcess inp.nowEvent).isCalibrating_ = true then
        ProcessCalibration (ProcessBeamStates
          (UpdateServo (FilterSensorValues (ReadSensors s inp.adc)) inp.nowServo)
          inp.nowProcess inp.nowEvent)
      else ProcessBeamStates
          (UpdateServo (FilterSensorValues (ReadSensors s inp.adc)) inp.nowServo)
          inp.nowProcess inp.nowEvent) := by
  unfold Update DetectBeamEvents
  simp only []
  rw [if_pos h]
  rfl

theorem CalPhase_of_calFrame (n p : Nat) (s t : LaserBeamManager)
    (h : calFrame t = calFrame s) (hs : CalPhase n p s) : CalPhase n p t := by
  simp only [calFrame, Prod.mk.injEq] at h
  obtain ⟨h1, h2, h3, h4, _, _⟩ := h
  unfold CalPhase GetActiveBeamCount at hs ⊢
  rw [h1, h2, h3, h4]
  exact hs

theorem CalPhase_ProcessCalibration (n p : Nat) (s : LaserBeamManager) (j : Nat)
    (h : CalPhase n p s) (hn : n ≤ 255) (hp : p < 101 * n) (hj : n ≤ j) :
    CalPhase n (p + 1) (ProcessCalibration s) ∧
      (ProcessCalibration s).calibrationValues_ j = s.calibrationValues_ j ∧
      (ProcessCalibration s).thresholds_ j = s.thresholds_ j := by
  obtain ⟨h1, h2, h3, h4⟩ := h
  simp only [hp, decide_True, if_true] at h2 h4
  have hb : s.calibrationBeam_ = p / 101 := by
    rw [h3]
    exact min_eq_left (by omega)
  have hjb : j ≠ s.calibrationBeam_ := by omega
  have h256 : (s.calibrationBeam_ + 1) % 256 = s.calibrationBeam_ + 1 := by omega
  unfold GetActiveBeamCount at h1
  unfold ProcessCalibration CalPhase GetActiveBeamCount
  simp only [h2, Bool.not_true, Bool.false_eq_true, if_false, CalculateThresholds,
    EndCalibration, h1, h256]
  split_ifs
  all_goals dsimp only
  all_goals refine ⟨⟨h1, ?_, ?_, ?_⟩, ?_, ?_⟩
  all_goals first
    | omega
    | rfl
    | exact Function.update_noteq hjb _ _
    | (rename_i hlt; simp only [hlt, decide_True, decide_False])

theorem CalPhase_done (n p : Nat) (s : LaserBeamManager) (h : CalPhase n p s)
    (hp : 101 * n ≤ p) : CalPhase n (p + 1) s := by
  obtain ⟨h1, h2, h3, h4⟩ := h
  have a : ¬ p < 101 * n := by omega
  have b : ¬ p + 1 < 101 * n := by omega
  simp only [a, decide_False, if_false] at h2 h4
  refine ⟨h1, ?_, ?_, ?_⟩
  · simp only [b, decide_False]
    exact h2
  · rw [h3]
    omega
  · simp only [b, if_false]
    exact h4

theorem CalPhase_Update (n p : Nat) (s : LaserBeamManager) (inp : TickInput) (j : Nat)
    (h : CalPhase n p s) (hn : n ≤ 255) (hj : n ≤ j)
    (hdue : sub32 (inp.now % U32) s.lastUpdateTime_ ≥ s.updateInterval_) :
    CalPhase n (p + 1) (Update s inp) ∧
      (Update s inp).calibrationValues_ j = s.calibrationValues_ j ∧
      (Update s inp).thresholds_ j = s.thresholds_ j := by
  have hf := calFrame_beforeCalibration s inp
  have hu := Update_due_eq s inp hdue
  have hX := CalPhase_of_calFrame n p s _ hf h
  have hf2 := hf
  simp only [calFrame, Prod.mk.injEq] at hf2
  obtain ⟨_, f2, _, _, f5, f6⟩ := hf2
  by_cases hp : p < 101 * n
  · have hcal : s.isCalibrating_ = true := by
      rw [h.2.1]
      simp only [hp, decide_True]
    rw [if_pos (f2.trans hcal)] at hu
    obtain ⟨c1, c2, c3⟩ := CalPhase_ProcessCalibration n p _ j hX hn hp hj
    have hu2 := hu
    simp only [calFrame, Prod.mk.injEq] at hu2
    obtain ⟨_, _, _, _, u5, u6⟩ := hu2
    refine ⟨CalPhase_of_calFrame n (p + 1) _ _ hu c1, ?_, ?_⟩
    · rw [u5, c2, f5]
    · rw [u6, c3, f6]
  · have hcal : s.isCalibrating_ = false := by
      rw [h.2.1]
      simp only [hp, decide_False]
    have hne : ¬ (ProcessBeamStates
        (UpdateServo (FilterSensorValues (ReadSensors s inp.adc)) inp.nowServo)
        inp.nowProcess inp.nowEvent).isCalibrating_ = true := by
      rw [f2, hcal]
      simp
    rw [if_neg hne] at hu
    have hu2 := hu
    simp only [calFrame, Prod.mk.injEq] at hu2
    obtain ⟨_, _, _, _, u5, u6⟩ := hu2
    refine ⟨CalPhase_of_calFrame n (p + 1) _ _ (hu.trans hf)
      (CalPhase_done n p s h (by omega)), ?_, ?_⟩
    · rw [u5, f5]
    · rw [u6, f6]

theorem CalPhase_runTicks (inps : List TickInput) (n p : Nat) (s : LaserBeamManager) (j : Nat)
    (h : CalPhase n p s) (hn : n ≤ 255) (hj : n ≤ j) (hdue : allDue s inps = true) :
    CalPhase n (p + inps.length) (runTicks s inps) ∧
      (runTicks s inps).calibrationValues_ j = s.calibrationValues_ j ∧
      (runTicks s inps).thresholds_ j = s.thresholds_ j := by
  induction inps generalizing s p with
  | nil => exact ⟨h, rfl, rfl⟩
  | cons inp inps ih =>
    simp only [allDue, Bool.and_eq_true, decide_eq_true_eq] at hdue
    obtain ⟨d1, d2⟩ := hdue
    obtain ⟨a1, a2, a3⟩ := CalPhase_Update n p s inp j h hn hj d1
    obtain ⟨b1, b2, b3⟩ := ih (p + 1) (Update s inp) a1 d2
    have hcons : runTicks s (inp :: inps) = runTicks (Update s inp) inps := rfl
    rw [hcons, List.length_cons]
    have e : p + (inps.length + 1) = p + 1 + inps.length := by omega
    rw [e]
    exact ⟨b1, b2.trans a2, b3.trans a3⟩

/-- C17: starting from a reset calibration session (calibrating, beam 0, count
0) with a beam count `n` between 1 and 16, after `m` calls of `Update` that
each run the body, `IsCalibrating` is true as long as `m < 101 * n` and false
from call `101 * n` on, which is the call that evaluates the threshold of beam
`n - 1`; up to then the active beam is `m / 101` (below `n`) with `m % 101`
samples taken, afterwards it is `n` with count 0; and for no beam `j >= n` the
sample buffer or the threshold ever changes. -/
theorem calibration_ends_after_last_beam (s : LaserBeamManager) (n : Nat)
    (inps : List TickInput) (j : Nat)
    (hn : GetActiveBeamCount s = n) (h1 : 1 ≤ n) (h16 : n ≤ 16)
    (hcal : s.isCalibrating_ = true) (hbeam : s.calibrationBeam_ = 0)
    (hcount : s.calibrationSampleCount_ = 0)
    (hdue : allDue s inps = true) (hj : n ≤ j) :
    IsCalibrating (runTicks s inps) = decide (inps.length < 101 * n) ∧
      (runTicks s inps).calibrationBeam_ = min (inps.length / 101) n ∧
      (runTicks s inps).calibrationSampleCount_ =
        (if inps.length < 101 * n then inps.length % 101 else 0) ∧
      (runTicks s inps).calibrationValues_ j = s.calibrationValues_ j ∧
      (runTicks s inps).thresholds_ j = s.thresholds_ j := by
  have h0 : CalPhase n 0 s := by
    have hlt : 0 < 101 * n := by omega
    refine ⟨hn, ?_, ?_, ?_⟩
    · simp only [hlt, decide_True]
      exact hcal
    · rw [hbeam]
      simp
    · simp only [hlt, if_true]
      exact hcount
  obtain ⟨⟨_, c2, c3, c4⟩, c5, c6⟩ :=
    CalPhase_runTicks inps n 0 s j h0 (by omega) hj hdue
  simp only [Nat.zero_add] at c2 c3 c4
  exact ⟨c2, c3, c4, c5, c6⟩

set_option maxRecDepth 1000000 in
/-- Witness of C17: seven beams; the calibration is running after 706 calls of
`Update` and over after 707. -/
theorem calibration_ends_after_last_beam_witness :
    (IsCalibrating (runTicks (StartCalibration configured7) (steadyTicks 706)) = true ∧
      (runTicks (StartCalibration configured7) (steadyTicks 706)).calibrationBeam_ = 6 ∧
      (runTicks (StartCalibration configured7) (steadyTicks 706)).calibrationSampleCount_ = 100 ∧
      IsCalibrating calibrationCompleted = false) ∧
    (IsCalibrating (runTicks (StartCalibration configured7) (steadyTicks 707)) =
        decide ((steadyTicks 707).length < 101 * 7) ∧
      (runTicks (StartCalibration configured7) (steadyTicks 707)).calibrationBeam_ =
        min ((steadyTicks 707).length / 101) 7 ∧
      (runTicks (StartCalibration configured7) (steadyTicks 707)).calibrationSampleCount_ =
        (if (steadyTicks 707).length < 101 * 7 then (steadyTicks 707).length % 101 else 0) ∧
      (runTicks (StartCalibration configured7) (steadyTicks 707)).calibrationValues_ 9 =
        (StartCalibration configured7).calibrationValues_ 9 ∧
      (runTicks (StartCalibration configured7) (steadyTicks 707)).thresholds_ 9 =
        (StartCalibration configured7).thresholds_ 9) :=
  ⟨by decide!,
    calibration_ends_after_last_beam (StartCalibration configured7) 7 (steadyTicks 707) 9
      rfl (by decide) (by decide) rfl rfl rfl (by decide!) (by decide)⟩

/-! ## Claims on single functions of the sensor interface -/

/-- C21: for every index of 16 or more `GetSensorValue` returns 0, `IsBeamBroken`
returns false and `SetSensorThreshold` returns the object unchanged; for every
index `k` below 16 `SetSensorThreshold(k, v)` sets the threshold of `k` to `v`
and leaves the threshold of every other index `j` unchanged. -/
theorem out_of_range_index_is_noop (s : LaserBeamManager) (i k j v : Nat)
    (hi : 16 ≤ i) (hk : k < 16) (hj : j ≠ k) :
    GetSensorValue s i = 0 ∧ IsBeamBroken s i = false ∧ SetSensorThreshold s i v = s ∧
      (SetSensorThreshold s k v).thresholds_ k = v ∧
      (SetSensorThreshold s k v).thresholds_ j = s.thresholds_ j := by
  have hn : ¬ i < 16 := by omega
  refine ⟨?_, ?_, ?_, ?_, ?_⟩
  · simp only [GetSensorValue, hn, if_false]
  · simp only [IsBeamBroken, hn, if_false]
  · simp only [SetSensorThreshold, hn, if_false]
  · simp only [SetSensorThreshold, hk, if_true, Function.update_same]
  · simp only [SetSensorThreshold, hk, if_true]
    exact Function.update_noteq hj _ _

/-- Witness of C21: indices 16 and 3 on a fresh object. -/
theorem out_of_range_index_is_noop_witness :
    GetSensorValue freshManager 16 = 0 ∧ IsBeamBroken freshManager 16 = false ∧
      SetSensorThreshold freshManager 16 500 = freshManager ∧
      (SetSensorThreshold freshManager 3 500).thresholds_ 3 = 500 ∧
      (SetSensorThreshold freshManager 3 500).thresholds_ 4 = freshManager.thresholds_ 4 :=
  out_of_range_index_is_noop freshManager 16 3 4 500 (by decide) (by decide) (by decide)

/-- C24: when the at-position flag and the emitter state both hold,
`FilterSensorValues` sets the filtered value of the current beam to
0.3 times its raw value plus 0.7 times its previous filtered value and leaves
the filtered value of every other channel `j` unchanged; when one of the two
does not hold (object `t`) it changes no filtered value. -/
theorem filter_changes_current_channel_only (s t : LaserBeamManager) (j : Nat)
    (hat : s.atBeamPosition_ = true) (hl : s.laserState_ = true)
    (hj : j ≠ s.currentBeamIndex_)
    (ht : t.atBeamPosition_ = false ∨ t.laserState_ = false) :
    (FilterSensorValues s).filteredValues_ s.currentBeamIndex_ =
        3 / 10 * s.sensorValues_ s.currentBeamIndex_ +
          7 / 10 * s.filteredValues_ s.currentBeamIndex_ ∧
      (FilterSensorValues s).filteredValues_ j = s.filteredValues_ j ∧
      (FilterSensorValues t).filteredValues_ = t.filteredValues_ ∧
      FilterSensorValues t = t := by
  have e : FilterSensorValues t = t := by
    unfold FilterSensorValues
    rcases ht with h | h <;> simp [h]
  refine ⟨?_, ?_, by rw [e], e⟩
  · simp only [FilterSensorValues, hat, hl, Bool.and_self, if_true, Function.update_same,
      ApplyLowPassFilter, FILTER_ALPHA]
    norm_num
  · simp only [FilterSensorValues, hat, hl, Bool.and_self, if_true]
    exact Function.update_noteq hj _ _

set_option maxRecDepth 1000000 in
/-- Witness of C24: the seven-beam scan after call 1 (at position, emitter on)
and before it. -/
theorem filter_changes_current_channel_only_witness :
    (FilterSensorValues (scan7 1)).filteredValues_ (scan7 1).currentBeamIndex_ =
        3 / 10 * (scan7 1).sensorValues_ (scan7 1).currentBeamIndex_ +
          7 / 10 * (scan7 1).filteredValues_ (scan7 1).currentBeamIndex_ ∧
      (FilterSensorValues (scan7 1)).filteredValues_ 5 = (scan7 1).filteredValues_ 5 ∧
      (FilterSensorValues configured7).filteredValues_ = configured7.filteredValues_ ∧
      FilterSensorValues configured7 = configured7 :=
  filter_changes_current_channel_only (scan7 1) configured7 5 (by decide!) (by decide!)
    (by decide!) (Or.inl rfl)

/-- C29: for every threshold above 0 and all sensor values `a <= b`,
`CalculateVelocity` of `a` is at least `CalculateVelocity` of `b`. -/
theorem calculateVelocity_antitone (s : LaserBeamManager) (a b : ℚ) (beamIndex : Nat)
    (hthr : 0 < s.thresholds_ beamIndex) (hab : a ≤ b) :
    CalculateVelocity s b beamIndex ≤ CalculateVelocity s a beamIndex := by
  have hd := floatDepth_antitone _ a b hthr hab
  have d0 := floatDepth_nonneg (s.thresholds_ beamIndex) b
  have hm : floatDepth (s.thresholds_ beamIndex) b * floatDepth (s.thresholds_ beamIndex) b ≤
      floatDepth (s.thresholds_ beamIndex) a * floatDepth (s.thresholds_ beamIndex) a := by
    nlinarith
  have hv := f32_mono _ _ (by positivity) hm
  have hv0 := f32_nonneg _ (mul_nonneg d0 d0)
  have hw := f32_mono _ _ (by positivity)
    (by linarith : f32 (floatDepth (s.thresholds_ beamIndex) b *
      floatDepth (s.thresholds_ beamIndex) b) * 126 ≤
      f32 (floatDepth (s.thresholds_ beamIndex) a *
      floatDepth (s.thresholds_ beamIndex) a) * 126)
  have hf := Int.floor_le_floor hw
  have ea := (CalculateVelocity_eq s a beamIndex).1
  have eb := (CalculateVelocity_eq s b beamIndex).1
  omega

/-- Witness of C29: threshold 700, sensor values 140 and 350. -/
theorem calculateVelocity_antitone_witness :
    CalculateVelocity freshManager 350 0 ≤ CalculateVelocity freshManager 140 0 :=
  calculateVelocity_antitone freshManager 140 350 0 (by decide) (by decide!)

set_option maxRecDepth 1000000 in
/-- C22 (what the code does instead): in the seven-beam scan call 1 arrives at
the target of beam 0 with the emitter on, and in that same call the target
becomes 28; before each of the calls 2 to 15 the at-position flag is set, the
emitter is on and less than 3000 clock units have passed since the arrival at
the time of the call, yet each of these calls moves the position by one step;
the emitter goes off at call 16. -/
theorem position_does_not_hold_at_beam :
    arrivedAtTarget (scan7 0) (scan7 1) (200 * 1) 0 ∧
      (scan7 1).targetStepPosition_ = 28 ∧ (scan7 1).laserState_ = true ∧
      ((List.range 14).all (fun k =>
        (scan7 (k + 1)).atBeamPosition_ && (scan7 (k + 1)).laserState_ &&
          decide (sub32 (200 * (k + 2)) (scan7 (k + 1)).beamCheckStartTime_ < 3000) &&
          decide ((scan7 (k + 1)).currentStepPosition_ = (k : Int) + 1) &&
          decide ((scan7 (k + 2)).currentStepPosition_ = (k : Int) + 2))) = true ∧
      (scan7 2).currentStepPosition_ ≠ (scan7 1).currentStepPosition_ ∧
      (scan7 15).laserState_ = true ∧ (scan7 16).laserState_ = false ∧
      (scan7 16).targetStepPosition_ = 28 := by
  decide!

set_option maxRecDepth 1000000 in
/-- C25 (what the code does instead): the event queued by call 27 of the
seven-beam scan for beam 2 carries 1000, the filtered value of beam 2, while
the raw value of beam 2 is 0 before and after that call. -/
theorem event_carries_filtered_value :
    pendingEvents (scan7 27) = [restoredEvent27] ∧
      restoredEvent27.beamIndex = 2 ∧ restoredEvent27.analogValue = 1000 ∧
      beforeProcess27.filteredValues_ 2 = 1000 ∧
      beforeProcess27.sensorValues_ 2 = 0 ∧
      (scan7 26).sensorValues_ 2 = 0 ∧ (scan7 27).sensorValues_ 2 = 0 := by
  decide!

/-! ## Claims on the motion state and the emitter -/

theorem flagFields_CalculateNextBeamPosition (s : LaserBeamManager) :
    flagFields (CalculateNextBeamPosition s) = flagFields s := by
  unfold CalculateNextBeamPosition
  simp only [flagFields]
  split_ifs <;> rfl

theorem FlagInv_of_flagFields (s t : LaserBeamManager) (h : flagFields t = flagFields s)
    (hs : FlagInv s) : FlagInv t := by
  simp only [flagFields, Prod.mk.injEq] at h
  obtain ⟨h1, h2, h3⟩ := h
  unfold FlagInv
  rw [h1, h2, h3]
  exact hs

theorem FlagInv_UpdateScanningMotion (s : LaserBeamManager) (t : Nat) (h : FlagInv s) :
    FlagInv (UpdateScanningMotion s t) := by
  have hc := fun x => flagFields_CalculateNextBeamPosition x
  simp only [flagFields, Prod.mk.injEq] at hc
  obtain ⟨h1, h2⟩ := h
  unfold UpdateScanningMotion MakeStep SetLaserState GetCurrentBeamIndex FlagInv
  simp only []
  split_ifs
  all_goals try dsimp only
  all_goals try simp only [hc]
  all_goals first
    | exact ⟨h1, h2⟩
    | (refine ⟨h1, ?_⟩; simp)

theorem FlagInv_UpdateServo (s : LaserBeamManager) (now : Nat) (h : FlagInv s) :
    FlagInv (UpdateServo s now) := by
  unfold UpdateServo UpdateCalibrationMotion
  split
  · exact FlagInv_UpdateScanningMotion s _ h
  · exact FlagInv_UpdateScanningMotion s _ h
  · exact h
  · exact h

theorem flagFields_of_motionFields (a b : LaserBeamManager)
    (h : motionFields a = motionFields b) : flagFields a = flagFields b := by
  simp only [motionFields, Prod.mk.injEq] at h
  obtain ⟨_, h2, _, _, _, _, _, _, _, h10, _, h12⟩ := h
  simp only [flagFields, h2, h10, h12]

theorem FlagInv_Update (s : LaserBeamManager) (inp : TickInput) (h : FlagInv s) :
    FlagInv (Update s inp) := by
  rcases motionFields_Update s inp with e | e
  · exact FlagInv_of_flagFields s _ (flagFields_of_motionFields _ _ e) h
  · have h0 : motionFields (FilterSensorValues (ReadSensors s inp.adc)) = motionFields s :=
      (motionFields_FilterSensorValues _).trans (motionFields_ReadSensors s inp.adc)
    have h1 := FlagInv_of_flagFields s _ (flagFields_of_motionFields _ _ h0) h
    have h2 := FlagInv_UpdateServo _ inp.nowServo h1
    exact FlagInv_of_flagFields _ _ (flagFields_of_motionFields _ _ e) h2

theorem FlagInv_apply (s : LaserBeamManager) (op : Op) (h : FlagInv s) :
    FlagInv (op.apply s) := by
  cases op with
  | Init config clk => exact ⟨Or.inr rfl, fun hf => absurd hf (by simp [Op.apply, Init, StartScanning])⟩
  | Update inp => exact FlagInv_Update s inp h
  | GetNextEvent event =>
    simp only [Op.apply, GetNextEvent]
    split_ifs
    · exact h
    · exact h
  | ClearEvents => exact h
  | StartCalibration => exact h
  | EndCalibration => exact h
  | CalibrateCurrentBeam => exact h
  | StartScanning clk => exact ⟨Or.inr rfl, fun hf => absurd hf (by simp [Op.apply, StartScanning])⟩
  | StopScanning => exact ⟨Or.inl rfl, fun hf => absurd hf (by simp [Op.apply, StopScanning])⟩
  | SetServoPosition angle => exact h
  | SetSensorThreshold i v =>
    simp only [Op.apply, SetSensorThreshold]
    split_ifs
    · exact h
    · exact h

theorem FlagInv_runOps (ops : List Op) (s : LaserBeamManager) (h : FlagInv s) :
    FlagInv (runOps s ops) := by
  induction ops generalizing s with
  | nil => exact h
  | cons op ops ih => exact ih (op.apply s) (FlagInv_apply s op h)

theorem FlagInv_ctor (q0 : Nat → BeamEvent) (c0 : Nat → Nat → ℚ) :
    FlagInv (LaserBeamManager.ctor q0 c0) :=
  ⟨Or.inl rfl, fun hf => absurd hf (by simp [LaserBeamManager.ctor])⟩

/-- C26: in every state reached from the constructor by public calls (`Init`,
`Update`, the scanning, calibration, queue and sensor calls), `GetServoState`
returns Idle or Scanning: never Error and never Calibrating, whatever
`IsCalibrating` returns. -/
theorem servoState_idle_or_scanning (q0 : Nat → BeamEvent) (c0 : Nat → Nat → ℚ)
    (ops : List Op) :
    (GetServoState (runOps (LaserBeamManager.ctor q0 c0) ops) = ServoState.SERVO_IDLE ∨
      GetServoState (runOps (LaserBeamManager.ctor q0 c0) ops) = ServoState.SERVO_SCANNING) ∧
    GetServoState (runOps (LaserBeamManager.ctor q0 c0) ops) ≠ ServoState.SERVO_ERROR ∧
    GetServoState (runOps (LaserBeamManager.ctor q0 c0) ops) ≠ ServoState.SERVO_CALIBRATING := by
  have h := (FlagInv_runOps ops _ (FlagInv_ctor q0 c0)).1
  unfold GetServoState
  rcases h with h | h <;> rw [h] <;> simp

theorem sensingFields_CalculateNextBeamPosition (s : LaserBeamManager) :
    sensingFields (CalculateNextBeamPosition s) = sensingFields s := by
  unfold CalculateNextBeamPosition
  simp only [sensingFields]
  split_ifs <;> rfl

theorem sensingFields_UpdateScanningMotion (s : LaserBeamManager) (t : Nat) :
    sensingFields (UpdateScanningMotion s t) = sensingFields s := by
  have hc := fun x => sensingFields_CalculateNextBeamPosition x
  simp only [sensingFields, Prod.mk.injEq] at hc
  unfold UpdateScanningMotion MakeStep SetLaserState GetCurrentBeamIndex
  simp only [sensingFields]
  split_ifs <;> simp only [hc]

theorem sensingFields_UpdateServo (s : LaserBeamManager) (now : Nat) :
    sensingFields (UpdateServo s now) = sensingFields s := by
  unfold UpdateServo UpdateCalibrationMotion
  split
  all_goals first
    | rfl
    | exact sensingFields_UpdateScanningMotion _ _

theorem sensingFields_ProcessCalibration (s : LaserBeamManager) :
    sensingFields (ProcessCalibration s) = sensingFields s := by
  unfold ProcessCalibration
  simp only []
  split_ifs <;> rfl

set_option maxRecDepth 1000000 in
/-- C23 (what the code does instead): in a calibration of beam 0 started after
`Init` with seven beams, the at-position flag is clear before and after call 17
of `Update` and the current beam index is 1, not the active calibration beam 0;
yet call 17 takes the sample count from 16 to 17 and writes cell 16 of the
sample buffer of beam 0, with the value read for beam 0 at call 1. -/
theorem calibration_samples_off_position :
    IsCalibrating (calibrating7 16) = true ∧ (calibrating7 16).calibrationBeam_ = 0 ∧
      (calibrating7 16).atBeamPosition_ = false ∧ (calibrating7 17).atBeamPosition_ = false ∧
      (calibrating7 16).currentBeamIndex_ = 1 ∧ (calibrating7 17).currentBeamIndex_ = 1 ∧
      (calibrating7 16).calibrationSampleCount_ = 16 ∧
      (calibrating7 17).calibrationSampleCount_ = 17 ∧
      (calibrating7 16).calibrationValues_ 0 16 = 0 ∧
      (calibrating7 17).calibrationValues_ 0 16 = 1023 := by
  decide!

/-! ## Claims on the bounds of the calibration -/

theorem Update_not_due (s : LaserBeamManager) (inp : TickInput)
    (h : ¬ sub32 (inp.now % U32) s.lastUpdateTime_ ≥ s.updateInterval_) :
    Update s inp = s := by
  unfold Update
  simp only []
  rw [if_neg h]

theorem eventFrame_of_sensingFields (a b : LaserBeamManager)
    (h : sensingFields a = sensingFields b) : eventFrame a = eventFrame b := by
  simp only [sensingFields, Prod.mk.injEq] at h
  obtain ⟨_, _, h3, _, h5, h6, h7, h8⟩ := h
  simp only [eventFrame, h3, h5, h6, h7, h8]

theorem eventFrame_FilterSensorValues (s : LaserBeamManager) :
    eventFrame (FilterSensorValues s) = eventFrame s := by
  unfold FilterSensorValues
  split_ifs <;> rfl

theorem pendingEvents_of_eventFrame (a b : LaserBeamManager) (h : eventFrame a = eventFrame b) :
    pendingEvents a = pendingEvents b ∧ a.beamStates_ = b.beamStates_ ∧
      a.eventQueueCount_ = b.eventQueueCount_ ∧ (QueueInv b → QueueInv a) := by
  simp only [eventFrame, Prod.mk.injEq] at h
  obtain ⟨h1, h2, h3, h4, h5⟩ := h
  refine ⟨by simp only [pendingEvents, h2, h3, h5], h1, h5, ?_⟩
  intro hb
  unfold QueueInv
  rw [h3, h4, h5]
  exact hb

theorem Update_due_frames (s : LaserBeamManager) (inp : TickInput)
    (hdue : sub32 (inp.now % U32) s.lastUpdateTime_ ≥ s.updateInterval_) :
    eventFrame (Update s inp) =
        eventFrame (ProcessBeamStates
          (UpdateServo (FilterSensorValues (ReadSensors s inp.adc)) inp.nowServo)
          inp.nowProcess inp.nowEvent) ∧
      (Update s inp).currentBeamIndex_ =
        (UpdateServo (FilterSensorValues (ReadSensors s inp.adc)) inp.nowServo).currentBeamIndex_ ∧
      eventFrame (UpdateServo (FilterSensorValues (ReadSensors s inp.adc)) inp.nowServo) =
        eventFrame s := by
  refine ⟨?_, ?_, ?_⟩
  · unfold Update DetectBeamEvents
    simp only []
    rw [if_pos hdue]
    split_ifs
    · exact eventFrame_of_sensingFields _ _ (sensingFields_ProcessCalibration _)
    · rfl
  · have h := (Update_due s inp hdue).1
    simp only [motionFields, Prod.mk.injEq] at h
    exact h.2.2.2.2.2.2.2.1
  · rw [eventFrame_of_sensingFields _ _ (sensingFields_UpdateServo _ _),
      eventFrame_FilterSensorValues]
    rfl

theorem confirm_event_step (U : LaserBeamManager) (b : Bool) (now nowEvent : Nat)
    (ty : BeamEventType) (vel : Nat) (av : ℚ) (hqU : QueueInv U)
    (hp : U.beamStates_ U.currentBeamIndex_ = !b) :
    ((QueueEvent (confirmTransition U b now) ty U.currentBeamIndex_ vel av
          nowEvent).eventQueueCount_ = U.eventQueueCount_ ∧
        (QueueEvent (confirmTransition U b now) ty U.currentBeamIndex_ vel av
          nowEvent).beamStates_ U.currentBeamIndex_ ≠ U.beamStates_ U.currentBeamIndex_) ∨
      (pendingEvents (QueueEvent (confirmTransition U b now) ty U.currentBeamIndex_ vel av
          nowEvent) =
          pendingEvents U ++
            [{ type := ty, beamIndex := U.currentBeamIndex_, velocity := vel,
               timestamp := nowEvent % U32, analogValue := av }] ∧
        (QueueEvent (confirmTransition U b now) ty U.currentBeamIndex_ vel av
          nowEvent).beamStates_ = Function.update U.beamStates_ U.currentBeamIndex_ b) := by
  have hb : (confirmTransition U b now).beamStates_ =
      Function.update U.beamStates_ U.currentBeamIndex_ b := rfl
  by_cases hfull : 32 ≤ U.eventQueueCount_
  · left
    have hQ := QueueEvent_full (confirmTransition U b now) ty U.currentBeamIndex_ vel av
      nowEvent hfull
    rw [hQ, hb, Function.update_same, hp]
    exact ⟨rfl, by cases b <;> simp⟩
  · right
    have hqC : QueueInv (confirmTransition U b now) := hqU
    have hpend := pendingEvents_QueueEvent (confirmTransition U b now) ty U.currentBeamIndex_
      vel av nowEvent hqC
    have hs : pendingEvents (confirmTransition U b now) = pendingEvents U := rfl
    rw [hs] at hpend
    unfold BoundedFifo.push at hpend
    rw [if_pos (by rw [pendingEvents_length]; omega)] at hpend
    exact ⟨hpend, by rw [beamStates_QueueEvent, hb]⟩

theorem Update_event_step (s : LaserBeamManager) (inp : TickInput) (hq : QueueInv s)
    (hnd : dropped s inp = false) :
    (pendingEvents (Update s inp) = pendingEvents s ∧
        (Update s inp).beamStates_ = s.beamStates_) ∨
      ∃ e, pendingEvents (Update s inp) = pendingEvents s ++ [e] ∧
        (Update s inp).beamStates_ =
          Function.update s.beamStates_ e.beamIndex (!(s.beamStates_ e.beamIndex)) ∧
        e.type = (if s.beamStates_ e.beamIndex = true then BeamEventType.BEAM_RESTORED
          else BeamEventType.BEAM_BROKEN) := by
  by_cases hdue : sub32 (inp.now % U32) s.lastUpdateTime_ ≥ s.updateInterval_
  · obtain ⟨f1, f2, f3⟩ := Update_due_frames s inp hdue
    obtain ⟨U, hU⟩ : ∃ U, U = UpdateServo (FilterSensorValues (ReadSensors s inp.adc))
        inp.nowServo := ⟨_, rfl⟩
    rw [← hU] at f1 f2 f3
    obtain ⟨pU, bU, cU, qU⟩ := pendingEvents_of_eventFrame U s f3
    have hqU : QueueInv U := qU hq
    have key : ∀ (b : Bool) (ty : BeamEventType) (vel : Nat) (av : ℚ),
        U.beamStates_ U.currentBeamIndex_ = (!b) →
        ProcessBeamStates U inp.nowProcess inp.nowEvent =
          QueueEvent (confirmTransition U b inp.nowProcess) ty U.currentBeamIndex_ vel av
            inp.nowEvent →
        ty = (if b = true then BeamEventType.BEAM_BROKEN else BeamEventType.BEAM_RESTORED) →
        ∃ e, pendingEvents (Update s inp) = pendingEvents s ++ [e] ∧
          (Update s inp).beamStates_ =
            Function.update s.beamStates_ e.beamIndex (!(s.beamStates_ e.beamIndex)) ∧
          e.type = (if s.beamStates_ e.beamIndex = true then BeamEventType.BEAM_RESTORED
            else BeamEventType.BEAM_BROKEN) := by
      intro b ty vel av hp h hty
      rw [h] at f1
      obtain ⟨pX, bX, cX, _⟩ := pendingEvents_of_eventFrame _ _ f1
      rcases confirm_event_step U b inp.nowProcess inp.nowEvent ty vel av hqU hp with
        ⟨d1, d2⟩ | ⟨d1, d2⟩
      · exfalso
        have hd : dropped s inp = true := by
          unfold dropped
          rw [f2, bX, cX, d1, cU, ← bU]
          simp only [decide_True, Bool.true_and, bne_iff_ne, ne_eq]
          exact d2
        rw [hd] at hnd
        exact Bool.noConfusion hnd
      · refine ⟨_, pX.trans (d1.trans (by rw [pU])), ?_, ?_⟩
        · rw [bX, d2, ← bU, hp]
          simp
        · dsimp only
          rw [← bU, hp, hty]
          cases b <;> simp
    rcases ProcessBeamStates_cases U inp.nowProcess inp.nowEvent with h | ⟨hp, _, h⟩ | ⟨hp, _, h⟩
    · left
      rw [h] at f1
      obtain ⟨pX, bX, _, _⟩ := pendingEvents_of_eventFrame _ _ f1
      exact ⟨pX.trans pU, bX.trans bU⟩
    · right
      exact key true _ _ _ hp h rfl
    · right
      exact key false _ _ _ hp h rfl
  · left
    rw [Update_not_due s inp hdue]
    exact ⟨rfl, rfl⟩

theorem LogInv_append (i : Nat) (log : List BeamEvent) (st : Nat → Bool) (e : BeamEvent)
    (h : LogInv i log st)
    (hty : e.type = (if st e.beamIndex = true then BeamEventType.BEAM_RESTORED
      else BeamEventType.BEAM_BROKEN)) :
    LogInv i (log ++ [e]) (Function.update st e.beamIndex (!(st e.beamIndex))) := by
  obtain ⟨h1, h2⟩ := h
  by_cases hj : e.beamIndex = i
  · have hf : eventsOf i (log ++ [e]) = eventsOf i log ++ [e] := by
      simp [eventsOf, List.filter_append, hj]
    rw [hj] at hty
    unfold LogInv
    rw [hf, hj, Function.update_same]
    constructor
    · apply List.Chain'.append h1 (List.chain'_singleton e)
      intro x hx y hy
      have hxt := h2 x (by simpa using hx)
      simp only [List.head?_cons, Option.mem_def, Option.some.injEq] at hy
      rw [← hy, hxt, hty]
      cases st i <;> simp
    · intro e' he'
      rw [List.getLast?_concat] at he'
      simp only [Option.some.injEq] at he'
      rw [← he', hty]
      cases st i <;> simp
  · have hf : eventsOf i (log ++ [e]) = eventsOf i log := by
      simp [eventsOf, List.filter_append, hj]
    unfold LogInv
    rw [hf, Function.update_noteq (Ne.symm hj)]
    exact ⟨h1, h2⟩

theorem runTicks_log (inps : List TickInput) (i : Nat) (base : List BeamEvent)
    (s : LaserBeamManager) (log : List BeamEvent)
    (hq : QueueInv s) (hnd : noDrop s inps = true)
    (hpend : pendingEvents s = base ++ log) (hinv : LogInv i log s.beamStates_) :
    ∃ log', pendingEvents (runTicks s inps) = base ++ log' ∧
      LogInv i log' (runTicks s inps).beamStates_ := by
  induction inps generalizing s log with
  | nil => exact ⟨log, hpend, hinv⟩
  | cons inp inps ih =>
    simp only [noDrop, Bool.and_eq_true, Bool.not_eq_true'] at hnd
    obtain ⟨n1, n2⟩ := hnd
    have hq' := QueueInv_Update s inp hq
    have hcons : runTicks s (inp :: inps) = runTicks (Update s inp) inps := rfl
    rw [hcons]
    rcases Update_event_step s inp hq n1 with ⟨p, b⟩ | ⟨e, p, b, ty⟩
    · exact ih (Update s inp) log hq' n2 (p.trans hpend) (by rw [b]; exact hinv)
    · refine ih (Update s inp) (log ++ [e]) hq' n2 ?_ ?_
      · rw [p, hpend, List.append_assoc]
      · rw [b]
        exact LogInv_append i log s.beamStates_ e hinv ty

/-- C30: over every sequence of `Update` calls in which no event is dropped,
the queue grows by the events queued in these calls, and for every beam `i`
the events queued for it alternate in type: no two consecutive ones are both
Broken or both Restored. -/
theorem events_alternate_per_beam (s : LaserBeamManager) (inps : List TickInput) (i : Nat)
    (hq : QueueInv s) (hnd : noDrop s inps = true) :
    pendingEvents (runTicks s inps) =
        pendingEvents s ++ enqueuedSince s (runTicks s inps) ∧
      alternates (eventsOf i (enqueuedSince s (runTicks s inps))) := by
  have h0 : LogInv i [] s.beamStates_ := by
    refine ⟨?_, ?_⟩
    · simp [alternates, eventsOf]
    · intro e he
      simp [eventsOf] at he
  obtain ⟨log, hp, hl⟩ := runTicks_log inps i (pendingEvents s) s [] hq hnd
    (List.append_nil _).symm h0
  have hd : enqueuedSince s (runTicks s inps) = log := by
    unfold enqueuedSince
    rw [hp]
    exact List.drop_left' (pendingEvents_length s)
  rw [hd]
  exact ⟨hp, hl.1⟩

set_option maxRecDepth 1000000 in
/-- Witness of C30: one beam, 60 calls of `Update`, the converter at full scale
for the first 30 calls and at 0 afterwards: two events are queued for beam 0, a
Restored one and then a Broken one. -/
theorem events_alternate_per_beam_witness :
    (eventsOf 0 (enqueuedSince configured1 (runTicks configured1 fadingTicks))).map
        (fun e => e.type) = [BeamEventType.BEAM_RESTORED, BeamEventType.BEAM_BROKEN] ∧
    (pendingEvents (runTicks configured1 fadingTicks) =
        pendingEvents configured1 ++
          enqueuedSince configured1 (runTicks configured1 fadingTicks) ∧
      alternates (eventsOf 0 (enqueuedSince configured1 (runTicks configured1 fadingTicks)))) :=
  ⟨by decide!,
    events_alternate_per_beam configured1 fadingTicks 0
      (by unfold QueueInv; decide!) (by decide!)⟩

end LaserHarp
